import Mathlib

/-!
Shallow embedding of the Martinez–Rueda–Feito polygon clipping library
(TypeScript sources: `martinez.ts`, `GeometryUtils.ts`, `SweepEvent`,
`SweepEventComparator.ts`, `SegmentComparator`, `PriorityQueue`, `OrderedSet`,
`PointChain.ts` / `Connector`, enum modules).

Coordinates are modelled as exact rationals (`ℚ`).  The TypeScript code uses
IEEE-754 doubles; every claim settled here is about the branching structure
and data flow of the code, for which exact rational arithmetic is the faithful
shallow embedding (the numeric constants `sqrEpsilon = 1e-7` and
`snapDistance = 1e-8` are carried over as the rationals `1/10^7` and
`1/10^8`).
-/

namespace Martinez

/-- A planar point, mirroring the `Point` interface `{x, y}`. -/
structure Point where
  x : ℚ
  y : ℚ
deriving DecidableEq, Repr

/-- A line segment, mirroring the `Segment` class with `beginPoint`/`endPoint`. -/
structure Seg where
  beginPoint : Point
  endPoint : Point
deriving DecidableEq, Repr

/-! Enum constants, mirroring `BooleanOperationType`, `EdgeType` and
`PolygonType`.  They are plain numbers in the source, so they are `Nat`
constants here. -/

def INTERSECTION : Nat := 0

def UNION : Nat := 1

def DIFFERENCE : Nat := 2

def XOR : Nat := 3

def NORMAL : Nat := 0

def NON_CONTRIBUTING : Nat := 1

def SAME_TRANSITION : Nat := 2

def DIFFERENT_TRANSITION : Nat := 3

def SUBJECT : Nat := 0

def CLIPPING : Nat := 1

/-- `GeometryUtils.calculateSignedArea`:
`(p0.x - p2.x) * (p1.y - p2.y) - (p1.x - p2.x) * (p0.y - p2.y)`. -/
def calculateSignedArea (p0 p1 p2 : Point) : ℚ :=
  (p0.x - p2.x) * (p1.y - p2.y) - (p1.x - p2.x) * (p0.y - p2.y)

/-- The constant `sqrEpsilon = 0.0000001` of `findSegmentIntersection`. -/
def sqrEpsilon : ℚ := 1 / 10000000

/-- The constant `snapDistance = 0.00000001` of `findSegmentIntersection`. -/
def snapDistance : ℚ := 1 / 100000000

/-- One step of the endpoint-snapping `if`/`else if` chain of
`findSegmentIntersection`: `|p.x - q.x| < snapDistance && |p.y - q.y| < snapDistance`. -/
def closeToPoint (p q : Point) : Bool :=
  |p.x - q.x| < snapDistance && |p.y - q.y| < snapDistance

/-- The endpoint-snapping chain of the non-parallel branch of
`findSegmentIntersection`: the computed intersection point is replaced by the
first of `p0`, `p1`, `p2`, `p3` that is within `snapDistance` of it in each
coordinate (an `else if` cascade in the source). -/
def snapToEndpoints (p p0 p1 p2 p3 : Point) : Point :=
  if closeToPoint p p0 then p0
  else if closeToPoint p p1 then p1
  else if closeToPoint p p2 then p2
  else if closeToPoint p p3 then p3
  else p

/-- `GeometryUtils.findSegmentIntersection`.  Returns the number of
intersections (0, 1 or 2) together with the two output points
(`intersectionPoint1`, `intersectionPoint2`); the caller initializes both
output points to `(0, 0)`, so a point that the function does not write keeps
that value, exactly as at the call site in `possibleIntersection`. -/
def findSegmentIntersection (segment1 segment2 : Seg) : Nat × Point × Point :=
  let p0 := segment1.beginPoint
  let p1 := segment1.endPoint
  let p2 := segment2.beginPoint
  let p3 := segment2.endPoint
  let d0x := p1.x - p0.x
  let d0y := p1.y - p0.y
  let d1x := p3.x - p2.x
  let d1y := p3.y - p2.y
  let Ex := p2.x - p0.x
  let Ey := p2.y - p0.y
  let kross := d0x * d1y - d0y * d1x
  let sqrLen0 := d0x * d0x + d0y * d0y
  let sqrLen1 := d1x * d1x + d1y * d1y
  let unset : Point := ⟨0, 0⟩
  if kross * kross > sqrEpsilon * sqrLen0 * sqrLen1 then
    -- Lines are not parallel - check for intersection
    let s := (Ex * d1y - Ey * d1x) / kross
    if s < 0 ∨ s > 1 then (0, unset, unset)
    else
      let t := (Ex * d0y - Ey * d0x) / kross
      if t < 0 ∨ t > 1 then (0, unset, unset)
      else
        let ip : Point := ⟨p0.x + s * d0x, p0.y + s * d0y⟩
        (1, snapToEndpoints ip p0 p1 p2 p3, unset)
  else
    let sqrLenE := Ex * Ex + Ey * Ey
    let krossE := Ex * d0y - Ey * d0x
    if krossE * krossE > sqrEpsilon * sqrLen0 * sqrLenE then
      -- Lines are parallel but different - no intersection
      (0, unset, unset)
    else
      -- Lines are collinear - check for segment overlap
      let s0 := (d0x * Ex + d0y * Ey) / sqrLen0
      let s1 := s0 + (d0x * d1x + d0y * d1y) / sqrLen0
      let smin := min s0 s1
      let smax := max s0 s1
      let wmin := max 0 smin
      let wmax := min 1 smax
      if wmin > wmax then (0, unset, unset)
      else if wmin = wmax then
        (1, ⟨p0.x + wmin * d0x, p0.y + wmin * d0y⟩, unset)
      else
        (2, ⟨p0.x + wmin * d0x, p0.y + wmin * d0y⟩, ⟨p0.x + wmax * d0x, p0.y + wmax * d0y⟩)

/-! ## Event model

`SweepEvent` holds a twin reference (`otherEvent`), which in the source is an
object pointer.  The embedding uses an arena: all events live in an
`Array SweepEvent` (the source's `eventStorage`), and `otherEvent` is an index
into it (`none` mirrors the `null` the constructor may receive). -/

/-- The `SweepEvent` class.  `otherEvent` is an arena index. -/
structure SweepEvent where
  point : Point
  isLeftEndpoint : Bool
  polygonLabel : Nat
  otherEvent : Option Nat
  edgeType : Nat := NORMAL
  isInsideOutsideTransition : Bool := false
  isInsideOtherPolygon : Bool := false
  positionInSweepLine : Option Nat := none
deriving Repr

/-- Placeholder event returned on an out-of-range arena access.  The source
uses non-null assertions (`!`); every access proved about below is in range. -/
def defaultEvent : SweepEvent :=
  { point := ⟨0, 0⟩, isLeftEndpoint := true, polygonLabel := 0, otherEvent := none }

/-- Arena of events: the `eventStorage` array. -/
abbrev EventStorage := Array SweepEvent

/-- Read an event from the arena. -/
def getEvent (st : EventStorage) (i : Nat) : SweepEvent :=
  st.getD i defaultEvent

/-- Arena index of `e.otherEvent!` (0 when `null`; never the case on queued events). -/
def otherIdx (st : EventStorage) (i : Nat) : Nat :=
  (getEvent st i).otherEvent.getD 0

/-- `SweepEvent.getSegment` / `segment()`:
`new Segment(this.point, this.otherEvent!.point)`. -/
def eventSegment (st : EventStorage) (i : Nat) : Seg :=
  ⟨(getEvent st i).point, (getEvent st (otherIdx st i)).point⟩

/-- `SweepEvent.isSegmentBelowPoint`. -/
def isSegmentBelowPoint (st : EventStorage) (i : Nat) (testPoint : Point) : Bool :=
  let e := getEvent st i
  let o := getEvent st (otherIdx st i)
  if e.isLeftEndpoint then
    calculateSignedArea e.point o.point testPoint > 0
  else
    calculateSignedArea o.point e.point testPoint > 0

/-- `SweepEvent.isSegmentAbovePoint`. -/
def isSegmentAbovePoint (st : EventStorage) (i : Nat) (testPoint : Point) : Bool :=
  !isSegmentBelowPoint st i testPoint

/-- `SweepEventComparator.compare`.  In heap terms, a `true` result means the
first event sinks below the second, i.e. the first event is processed
strictly after the second. -/
def sweepEventCompare (st : EventStorage) (a b : Nat) : Bool :=
  let ea := getEvent st a
  let eb := getEvent st b
  if ea.point.x > eb.point.x then true
  else if eb.point.x > ea.point.x then false
  else if ea.point.x ≠ eb.point.x ∨ ea.point.y ≠ eb.point.y then ea.point.y > eb.point.y
  else if ea.isLeftEndpoint ≠ eb.isLeftEndpoint then ea.isLeftEndpoint
  else isSegmentAbovePoint st a (getEvent st (otherIdx st b)).point

/-- `SegmentComparator.compare` (sweep-line status order).  The collinear
same-point fallback in the source is `(firstEvent as any) < (secondEvent as
any)`, a JavaScript relational comparison of two objects, which is `false`
for any two objects (both convert to the string `"[object Object]"`). -/
def segmentCompare (st : EventStorage) (a b : Nat) : Bool :=
  if a = b then false
  else
    let ea := getEvent st a
    let eb := getEvent st b
    let oa := getEvent st (otherIdx st a)
    let ob := getEvent st (otherIdx st b)
    if calculateSignedArea ea.point oa.point eb.point ≠ 0 ∨
        calculateSignedArea ea.point oa.point ob.point ≠ 0 then
      if ea.point = eb.point then isSegmentBelowPoint st a ob.point
      else if sweepEventCompare st a b then isSegmentAbovePoint st b ea.point
      else isSegmentBelowPoint st a eb.point
    else if ea.point = eb.point then false
    else sweepEventCompare st a b

/-! ## Ordered containers

`PriorityQueue` is a binary min-heap of arena indices; `OrderedSet` is a
sorted array of arena indices (binary-searched insertion), exactly as in
`data-structures`. -/

/-- `PriorityQueue.bubbleUp`. -/
def bubbleUp (st : EventStorage) (items : Array Nat) (index : Nat) : Array Nat :=
  if h : index > 0 then
    let parentIndex := (index - 1) / 2
    if !sweepEventCompare st (items.getD parentIndex 0) (items.getD index 0) then items
    else bubbleUp st (items.swap! parentIndex index) parentIndex
  else items
termination_by index
decreasing_by simp_wf; omega

/-- `PriorityQueue.push`. -/
def heapPush (st : EventStorage) (items : Array Nat) (item : Nat) : Array Nat :=
  bubbleUp st (items.push item) items.size

/-- The `minIndex` selected by one `bubbleDown` iteration: the smaller of the
two children when it must rise, otherwise the index itself. -/
def bubbleDownTarget (st : EventStorage) (items : Array Nat) (index : Nat) : Nat :=
  let leftChild := 2 * index + 1
  let rightChild := 2 * index + 2
  let minIndex1 :=
    if leftChild < items.size ∧
        sweepEventCompare st (items.getD index 0) (items.getD leftChild 0) then
      leftChild
    else index
  if rightChild < items.size ∧
      sweepEventCompare st (items.getD minIndex1 0) (items.getD rightChild 0) then
    rightChild
  else minIndex1

/-- `PriorityQueue.bubbleDown`.  The selected child index is always strictly
larger than `index` (and in bounds) when a swap happens, which bounds the
loop; the `else items` branch of the inner guard is unreachable. -/
def bubbleDown (st : EventStorage) (items : Array Nat) (index : Nat) : Array Nat :=
  let minIndex := bubbleDownTarget st items index
  if minIndex = index then items
  else
    if hlt : index < minIndex ∧ minIndex < items.size then
      bubbleDown st (items.swap! index minIndex) minIndex
    else items
termination_by items.size - index
decreasing_by
  rw [Array.size_swap!]
  exact Nat.sub_lt_sub_left (Nat.lt_trans hlt.1 hlt.2) hlt.1

/-- `PriorityQueue.pop` (returns the popped item and the new heap). -/
def heapPop (st : EventStorage) (items : Array Nat) : Option (Nat × Array Nat) :=
  if items.size = 0 then none
  else if items.size = 1 then some (items.getD 0 0, #[])
  else
    let top := items.getD 0 0
    let last := items.getD (items.size - 1) 0
    let items' := (items.set! 0 last).pop
    some (top, bubbleDown st items' 0)

/-- `OrderedSet.insert` binary search: returns the insertion index. -/
def osSearch (st : EventStorage) (items : Array Nat) (item : Nat)
    (left right : Nat) : Nat :=
  if h : left < right then
    let mid := (left + right) / 2
    if segmentCompare st (items.getD mid 0) item then
      osSearch st items item (mid + 1) right
    else
      osSearch st items item left mid
  else left
termination_by right - left
decreasing_by all_goals (simp_wf; omega)

/-- `OrderedSet.insert`: splices the item in at the binary-search position and
returns `(index, newItems)`. -/
def osInsert (st : EventStorage) (items : Array Nat) (item : Nat) :
    Nat × Array Nat :=
  let index := osSearch st items item 0 items.size
  (index, items.insertAt! index item)

/-- `OrderedSet.delete`: removes the first occurrence of the item (no-op when
absent, as `indexOf` returns `-1`). -/
def osDelete (items : Array Nat) (item : Nat) : Array Nat :=
  match items.indexOf? item with
  | some i => items.eraseIdx! i.1
  | none => items

/-! ## Polygons and bounding boxes -/

/-- A `Contour` as consumed on input: its ordered vertex list. -/
abbrev Contour := List Point

/-- An input `Polygon`: an ordered list of contours. -/
abbrev Polygon := List Contour

/-- `Contour.segment(i)`: the edge from vertex `i` to vertex `(i+1) % n`. -/
def contourSegment (c : Contour) (i : Nat) : Seg :=
  ⟨c.getD i ⟨0, 0⟩, c.getD ((i + 1) % c.length) ⟨0, 0⟩⟩

/-- All segments of a contour, in the order `Polygon.boundingbox` and the
event-queue setup loops visit them (`j = 0 .. pointCount - 1`). -/
def contourSegments (c : Contour) : List Seg :=
  (List.range c.length).map (contourSegment c)

/-- All segments of a polygon, contour by contour. -/
def polygonSegments (p : Polygon) : List Seg :=
  p.flatMap contourSegments

/-- `Polygon.boundingbox`: the min/max over the endpoints of every segment of
every contour.  The source initializes with `±Infinity` and an empty polygon
leaves the caller-initialized `(0,0)` points untouched; here a polygon
without any point yields `none`, and the caller reproduces the `Infinity`
comparison outcomes for that case. -/
def boundingbox (p : Polygon) : Option (Point × Point) :=
  let pts := (polygonSegments p).flatMap fun s => [s.beginPoint, s.endPoint]
  match pts with
  | [] => none
  | q :: rest =>
    some (rest.foldl
      (fun (acc : Point × Point) (r : Point) =>
        (⟨min acc.1.x r.x, min acc.1.y r.y⟩, ⟨max acc.2.x r.x, max acc.2.y r.y⟩))
      (q, q))

/-- The trivial-case test 2 of `computeBooleanOperation`:
`minsubj.x > maxclip.x || minclip.x > maxsubj.x || minsubj.y > maxclip.y ||
minclip.y > maxsubj.y`.  When either polygon has no points its box is
`(+∞,+∞)/(-∞,-∞)` in the source and the test is `true`; the `none` cases
reproduce that. -/
def bboxesDisjoint (subj clip : Option (Point × Point)) : Bool :=
  match subj, clip with
  | none, _ => true
  | _, none => true
  | some (minsubj, maxsubj), some (minclip, maxclip) =>
    minsubj.x > maxclip.x ∨ minclip.x > maxsubj.x ∨
      minsubj.y > maxclip.y ∨ minclip.y > maxsubj.y

/-! ## The Martinez instance state -/

/-- The mutable state of one `Martinez` computation: the event arena
(`eventStorage`), the event queue (a heap of arena indices), and the
intersection statistics. -/
structure MState where
  eventStorage : EventStorage := #[]
  eventQueue : Array Nat := #[]
  intersectionCount : Nat := 0
  intersectionPoints : List Point := []

/-- `Martinez.storeSweepEvent` followed by use of the stored event: appends to
the arena and returns the new index. -/
def storeSweepEvent (st : MState) (e : SweepEvent) : MState × Nat :=
  ({ st with eventStorage := st.eventStorage.push e }, st.eventStorage.size)

/-- `Martinez.processSegment`: build the two cross-linked events of one edge,
choose the left endpoint, and push both on the queue.  Zero-length edges are
discarded. -/
def processSegment (st : MState) (s : Seg) (pl : Nat) : MState :=
  if s.beginPoint = s.endPoint then st
  else
    let (st1, i1) := storeSweepEvent st
      { point := s.beginPoint, isLeftEndpoint := true, polygonLabel := pl, otherEvent := none }
    let (st2, i2) := storeSweepEvent st1
      { point := s.endPoint, isLeftEndpoint := true, polygonLabel := pl, otherEvent := some i1 }
    let storage := st2.eventStorage.modify i1 fun e => { e with otherEvent := some i2 }
    let storage :=
      if s.beginPoint.x < s.endPoint.x then
        storage.modify i2 fun e => { e with isLeftEndpoint := false }
      else if s.beginPoint.x > s.endPoint.x then
        storage.modify i1 fun e => { e with isLeftEndpoint := false }
      else if s.beginPoint.y < s.endPoint.y then
        storage.modify i2 fun e => { e with isLeftEndpoint := false }
      else
        storage.modify i1 fun e => { e with isLeftEndpoint := false }
    let q := heapPush storage st2.eventQueue i1
    let q := heapPush storage q i2
    { st2 with eventStorage := storage, eventQueue := q }

/-- `Martinez.divideSegment(e, p)`: store the right event `r` of the left
half and the left event `l` of the right half, repair the is-left flags when
the comparator ranks `l` after `e.otherEvent` (the `"Oops"` branch), rewire
the twins, and push both new events. -/
def divideSegment (st : MState) (e : Nat) (p : Point) : MState :=
  let eEv := getEvent st.eventStorage e
  let other := otherIdx st.eventStorage e
  let otherEv := getEvent st.eventStorage other
  let (st1, r) := storeSweepEvent st
    { point := p, isLeftEndpoint := false, polygonLabel := eEv.polygonLabel,
      otherEvent := some e, edgeType := eEv.edgeType }
  let (st2, l) := storeSweepEvent st1
    { point := p, isLeftEndpoint := true, polygonLabel := eEv.polygonLabel,
      otherEvent := some other, edgeType := otherEv.edgeType }
  let storage := st2.eventStorage
  let storage :=
    if sweepEventCompare storage l other then
      -- avoid a rounding error ("Oops"): swap the is-left flags
      let storage := storage.modify other fun ev => { ev with isLeftEndpoint := true }
      storage.modify l fun ev => { ev with isLeftEndpoint := false }
    else storage
  -- the `"Oops2"` branch only logs, it changes no state
  let storage := storage.modify other fun ev => { ev with otherEvent := some l }
  let storage := storage.modify e fun ev => { ev with otherEvent := some r }
  let q := heapPush storage st2.eventQueue l
  let q := heapPush storage q r
  { st2 with eventStorage := storage, eventQueue := q }

/-! ## `possibleIntersection` -/

/-- Assign an edge type to the event at an (optional) arena index; the `null`
entries of `sortedEvents` are never assigned to in the source. -/
def setEdgeType (storage : EventStorage) (i : Option Nat) (ty : Nat) : EventStorage :=
  match i with
  | some j => storage.modify j fun ev => { ev with edgeType := ty }
  | none => storage

/-- The `SAME_TRANSITION` / `DIFFERENT_TRANSITION` choice:
`e1.isInsideOutsideTransition === e2.isInsideOutsideTransition ? SAME_TRANSITION : DIFFERENT_TRANSITION`. -/
def transitionTypeOf (storage : EventStorage) (e1 e2 : Nat) : Nat :=
  if (getEvent storage e1).isInsideOutsideTransition =
      (getEvent storage e2).isInsideOutsideTransition then
    SAME_TRANSITION
  else DIFFERENT_TRANSITION

/-- `Martinez.possibleIntersection(e1, e2)`. -/
def possibleIntersection (st : MState) (e1 e2 : Nat) : MState :=
  let storage := st.eventStorage
  let res := findSegmentIntersection (eventSegment storage e1) (eventSegment storage e2)
  let nintersections := res.1
  let ip1 := res.2.1
  let ip2 := res.2.2
  let e1Ev := getEvent storage e1
  let e2Ev := getEvent storage e2
  let e1o := otherIdx storage e1
  let e2o := otherIdx storage e2
  if nintersections = 0 then st
  else if nintersections = 1 ∧
      (e1Ev.point = e2Ev.point ∨ (getEvent storage e1o).point = (getEvent storage e2o).point) then
    -- the line segments intersect at an endpoint of both line segments
    st
  else if nintersections = 2 ∧ e1Ev.polygonLabel = e2Ev.polygonLabel then
    -- the line segments overlap, but they belong to the same polygon
    st
  else
    let st := { st with
      intersectionCount := st.intersectionCount + nintersections,
      intersectionPoints := st.intersectionPoints ++
        (if nintersections = 1 then [ip1]
         else if nintersections = 2 then [ip1, ip2]
         else []) }
    if nintersections = 1 then
      let st :=
        if e1Ev.point ≠ ip1 ∧ (getEvent storage e1o).point ≠ ip1 then
          divideSegment st e1 ip1
        else st
      -- re-read e2's endpoints from the current storage, as the source does
      let storage' := st.eventStorage
      if (getEvent storage' e2).point ≠ ip1 ∧
          (getEvent storage' (otherIdx storage' e2)).point ≠ ip1 then
        divideSegment st e2 ip1
      else st
    else
      -- the line segments overlap
      let sortedFirst : List (Option Nat) :=
        if e1Ev.point = e2Ev.point then [none]
        else if sweepEventCompare storage e1 e2 then [some e2, some e1]
        else [some e1, some e2]
      let sortedSecond : List (Option Nat) :=
        if (getEvent storage e1o).point = (getEvent storage e2o).point then [none]
        else if sweepEventCompare storage e1o e2o then [some e2o, some e1o]
        else [some e1o, some e2o]
      let sortedEvents := sortedFirst ++ sortedSecond
      if sortedEvents.length = 2 then
        -- both line segments are equal
        let storage := setEdgeType storage (some e1) NON_CONTRIBUTING
        let storage := setEdgeType storage (some e1o) NON_CONTRIBUTING
        let tr := transitionTypeOf storage e1 e2
        let storage := setEdgeType storage (some e2) tr
        let storage := setEdgeType storage (some e2o) tr
        { st with eventStorage := storage }
      else if sortedEvents.length = 3 then
        -- the line segments share an endpoint
        let s1 := sortedEvents.getD 1 none
        let storage := setEdgeType storage s1 NON_CONTRIBUTING
        let storage := setEdgeType storage (s1.map (otherIdx storage)) NON_CONTRIBUTING
        let tr := transitionTypeOf storage e1 e2
        let storage :=
          match sortedEvents.getD 0 none with
          | some a => setEdgeType storage (some (otherIdx storage a)) tr
          | none => setEdgeType storage ((sortedEvents.getD 2 none).map (otherIdx storage)) tr
        let st := { st with eventStorage := storage }
        let dividee :=
          match sortedEvents.getD 0 none with
          | some a => a
          | none => otherIdx storage ((sortedEvents.getD 2 none).getD 0)
        divideSegment st dividee ((s1.map fun j => (getEvent storage j).point).getD ⟨0, 0⟩)
      else
        let s0 := (sortedEvents.getD 0 none).getD 0
        let s1 := (sortedEvents.getD 1 none).getD 0
        let s2 := (sortedEvents.getD 2 none).getD 0
        let s3 := (sortedEvents.getD 3 none).getD 0
        if s0 ≠ otherIdx storage s3 then
          -- no line segment includes totally the other one
          let storage := setEdgeType storage (some s1) NON_CONTRIBUTING
          let storage := setEdgeType storage (some s2) (transitionTypeOf storage e1 e2)
          let st := { st with eventStorage := storage }
          let st := divideSegment st s0 (getEvent storage s1).point
          divideSegment st s1 (getEvent storage s2).point
        else
          -- one line segment includes the other one
          let storage := setEdgeType storage (some s1) NON_CONTRIBUTING
          let storage := setEdgeType storage (some (otherIdx storage s1)) NON_CONTRIBUTING
          let st := { st with eventStorage := storage }
          let st := divideSegment st s0 (getEvent storage s1).point
          -- `sortedEvents[3].otherEvent` is re-read after the division rewired it
          let storage' := st.eventStorage
          let tr := transitionTypeOf storage' e1 e2
          let storage' := setEdgeType storage' (some (otherIdx storage' s3)) tr
          let st := { st with eventStorage := storage' }
          divideSegment st (otherIdx storage' s3) (getEvent storage' s2).point

/-! ## Contour assembler (`PointChain` / `Connector`)

`PointChain` in the source lacks an implementation of
`setSpatialContext` / `getSpatialContext`, which the `Connector` in the same
file calls.  Modelled from the spec: a closing chain records
`(prev_closed_index, τ)` as its spatial context (`spatialPrev`,
`spatialTransition`); before any recording the context's previous index is
absent. -/

/-- A `PointChain` together with its recorded spatial context. -/
structure PointChainS where
  pointList : List Point
  isChainClosed : Bool := false
  spatialPrev : Option Nat := none
  spatialTransition : Bool := false
deriving Repr

/-- `PointChain.linkSegment`: try to link a segment to this chain;
`none` when it does not attach. -/
def linkSegment (chain : PointChainS) (s : Seg) : Option PointChainS :=
  let front := chain.pointList.headD ⟨0, 0⟩
  let back := chain.pointList.getLastD ⟨0, 0⟩
  if s.beginPoint = front then
    if s.endPoint = back then some { chain with isChainClosed := true }
    else some { chain with pointList := s.endPoint :: chain.pointList }
  else if s.endPoint = back then
    if s.beginPoint = front then some { chain with isChainClosed := true }
    else some { chain with pointList := chain.pointList ++ [s.beginPoint] }
  else if s.endPoint = front then
    if s.beginPoint = back then some { chain with isChainClosed := true }
    else some { chain with pointList := s.beginPoint :: chain.pointList }
  else if s.beginPoint = back then
    if s.endPoint = front then some { chain with isChainClosed := true }
    else some { chain with pointList := chain.pointList ++ [s.endPoint] }
  else none

/-- `PointChain.linkPointChain`: try to splice another chain onto this one;
`none` when the end points do not meet. -/
def linkPointChain (chain other : PointChainS) : Option PointChainS :=
  let front := chain.pointList.headD ⟨0, 0⟩
  let back := chain.pointList.getLastD ⟨0, 0⟩
  let ofront := other.pointList.headD ⟨0, 0⟩
  let oback := other.pointList.getLastD ⟨0, 0⟩
  if ofront = back then
    some { chain with pointList := chain.pointList ++ other.pointList.tail }
  else if oback = front then
    some { chain with pointList := other.pointList ++ chain.pointList.tail }
  else if ofront = front then
    some { chain with pointList := other.pointList.reverse ++ chain.pointList.tail }
  else if oback = back then
    some { chain with pointList := chain.pointList.dropLast ++ other.pointList.reverse }
  else none

/-- The `Connector` state: open chains, closed chains, and the index of the
most recently closed chain (`prevInResult`). -/
structure ConnState where
  openChains : List PointChainS := []
  closedChains : List PointChainS := []
  prevInResult : Option Nat := none
deriving Repr

/-- The scan of `Connector.addSegment` over the open chains: the first chain
that links the segment, split as `(before, linked, after)`. -/
def tryLinkFirst (s : Seg) :
    List PointChainS → Option (List PointChainS × PointChainS × List PointChainS)
  | [] => none
  | c :: rest =>
    match linkSegment c s with
    | some c' => some ([], c', rest)
    | none => (tryLinkFirst s rest).map fun x => (c :: x.1, x.2.1, x.2.2)

/-- The inner scan of `Connector.addSegment`: merge the linked chain with the
first of the remaining open chains that accepts it (which is then erased). -/
def tryMergeFirst (c : PointChainS) :
    List PointChainS → Option (PointChainS × List PointChainS)
  | [] => none
  | o :: rest =>
    match linkPointChain c o with
    | some merged => some (merged, rest)
    | none => (tryMergeFirst c rest).map fun x => (x.1, o :: x.2)

/-- `Connector.addSegment(segment, resultTransition)`. -/
def connectorAdd (conn : ConnState) (s : Seg) (resultTransition : Bool) : ConnState :=
  match tryLinkFirst s conn.openChains with
  | none =>
    -- the segment cannot be connected with any open polygon
    { conn with openChains :=
        conn.openChains ++ [{ pointList := [s.beginPoint, s.endPoint] }] }
  | some (before, c', after) =>
    if c'.isChainClosed then
      let closedChain :=
        { c' with spatialPrev := conn.prevInResult, spatialTransition := resultTransition }
      { openChains := before ++ after,
        closedChains := conn.closedChains ++ [closedChain],
        prevInResult := some conn.closedChains.length }
    else
      match tryMergeFirst c' after with
      | some (merged, after') => { conn with openChains := before ++ merged :: after' }
      | none => { conn with openChains := before ++ c' :: after }

/-- An output contour with its hierarchy classification, mirroring the output
`Contour` class (`holeOf`, `holeIds`, `depth`, all at their constructor
defaults until `classifyContourHierarchy` sets them). -/
structure OutContour where
  points : List Point
  holeOf : Option Nat := none
  holeIds : List Nat := []
  depth : Nat := 0
deriving Repr, DecidableEq

/-- Default for out-of-range contour reads (the source indexes in range). -/
def defaultContour : OutContour := { points := [] }

/-- `Connector.classifyContourHierarchy`. -/
def classifyContourHierarchy (contourIndex : Nat) (prevInResult : Option Nat)
    (resultTransition : Bool) (arr : Array OutContour) : Array OutContour :=
  match prevInResult with
  | none => arr
  | some prev =>
    let prevContour := arr.getD prev defaultContour
    if resultTransition then
      match prevContour.holeOf with
      | some parentIndex =>
        -- the lower contour is a hole: connect to the same parent
        let arr := arr.modify contourIndex fun c => { c with holeOf := some parentIndex }
        let arr := arr.modify parentIndex fun c => { c with holeIds := c.holeIds ++ [contourIndex] }
        arr.modify contourIndex fun c =>
          { c with depth := (arr.getD prev defaultContour).depth }
      | none =>
        -- the lower contour is exterior: this hole becomes its child
        let arr := arr.modify contourIndex fun c => { c with holeOf := some prev }
        let arr := arr.modify prev fun c => { c with holeIds := c.holeIds ++ [contourIndex] }
        arr.modify contourIndex fun c =>
          { c with depth := (arr.getD prev defaultContour).depth + 1 }
    else
      arr.modify contourIndex fun c => { c with depth := (arr.getD prev defaultContour).depth }

/-- Folding a stream of emitted segments (each with its out-transition flag)
through `Connector.addSegment`, starting from a fresh connector: every
connector that reaches `toPolygon` in the main loop is of this shape. -/
def connectorFold (inputs : List (Seg × Bool)) : ConnState :=
  inputs.foldl (fun c sb => connectorAdd c sb.1 sb.2) {}

/-- `Connector.toPolygon`: first pass creates the contours, second pass
classifies those whose spatial context carries a previous index. -/
def connectorToPolygon (conn : ConnState) : Array OutContour :=
  let contours : Array OutContour :=
    (conn.closedChains.map fun c => ({ points := c.pointList } : OutContour)).toArray
  (List.range conn.closedChains.length).foldl
    (fun arr i =>
      let chain := conn.closedChains.getD i { pointList := [] }
      match chain.spatialPrev with
      | none => arr
      | some _ => classifyContourHierarchy i chain.spatialPrev chain.spatialTransition arr)
    contours

/-! ## The main sweep loop of `computeBooleanOperation` -/

/-- The position-refresh loops of the main loop: for each status slot from
`start` upward, if the event there has a non-null `positionInSweepLine`,
overwrite it with its slot index. -/
def refreshPositions (storage : EventStorage) (os : Array Nat) (start : Nat) :
    EventStorage :=
  (List.range' start (os.size - start)).foldl
    (fun stg i =>
      match os.get? i with
      | some ev =>
        if (getEvent stg ev).positionInSweepLine ≠ none then
          stg.modify ev fun e => { e with positionInSweepLine := some i }
        else stg
      | none => stg)
    storage

/-- The flag computation of the insertion branch ("Compute the inside and
inOut flags"), applied to the just-inserted event `e` at status position
`index`, with `prev` the status entry just below. -/
def computeFlags (storage : EventStorage) (os : Array Nat) (e index : Nat)
    (prev : Option Nat) : EventStorage :=
  match prev with
  | none =>
    -- there is not a previous line segment in S
    storage.modify e fun ev =>
      { ev with isInsideOtherPolygon := false, isInsideOutsideTransition := false }
  | some pv =>
    let prevEv := getEvent storage pv
    let eEv := getEvent storage e
    if prevEv.edgeType ≠ NORMAL then
      if index ≤ 1 then
        storage.modify e fun ev =>
          { ev with isInsideOtherPolygon := true, isInsideOutsideTransition := false }
      else
        match os.get? (index - 2) with
        | some pp =>
          let ppEv := getEvent storage pp
          if prevEv.polygonLabel = eEv.polygonLabel then
            storage.modify e fun ev =>
              { ev with
                isInsideOutsideTransition := !prevEv.isInsideOutsideTransition,
                isInsideOtherPolygon := !ppEv.isInsideOutsideTransition }
          else
            storage.modify e fun ev =>
              { ev with
                isInsideOutsideTransition := !ppEv.isInsideOutsideTransition,
                isInsideOtherPolygon := !prevEv.isInsideOutsideTransition }
        | none => storage
    else if eEv.polygonLabel = prevEv.polygonLabel then
      storage.modify e fun ev =>
        { ev with
          isInsideOtherPolygon := prevEv.isInsideOtherPolygon,
          isInsideOutsideTransition := !prevEv.isInsideOutsideTransition }
    else
      storage.modify e fun ev =>
        { ev with
          isInsideOtherPolygon := !prevEv.isInsideOutsideTransition,
          isInsideOutsideTransition := prevEv.isInsideOtherPolygon }

/-- The pair of arguments every emission site passes to
`connector.addSegment`: `(event.segment(), event.otherEvent!.isInsideOutsideTransition)`
for a right event `event`. -/
def rightEventEmission (storage : EventStorage) (e : Nat) : Seg × Bool :=
  (eventSegment storage e,
   (getEvent storage (otherIdx storage e)).isInsideOutsideTransition)

/-- The emission decision of the removal branch: the `switch` over
`event.edgeType` and `operation`, with `isInsideOtherPolygon` the flag of the
left twin (`event.otherEvent!.isInsideOtherPolygon`) and `polygonLabel` the
label of the right event. -/
def segmentSelected (operation edgeType polygonLabel : Nat)
    (isInsideOtherPolygon : Bool) : Bool :=
  if edgeType = NORMAL then
    if operation = INTERSECTION then isInsideOtherPolygon
    else if operation = UNION then !isInsideOtherPolygon
    else if operation = DIFFERENCE then
      (polygonLabel = SUBJECT ∧ !isInsideOtherPolygon) ∨
        (polygonLabel = CLIPPING ∧ isInsideOtherPolygon)
    else if operation = XOR then true
    else false
  else if edgeType = SAME_TRANSITION then
    operation = INTERSECTION ∨ operation = UNION
  else if edgeType = DIFFERENT_TRANSITION then
    operation = DIFFERENCE
  else false

/-- The `while` loop of the UNION early-exit ("add all the non-processed line
segments to the result"): pops every remaining event and emits the right
ones.  Each pop shrinks the queue by one, so `fuel := queue size` drains it. -/
def drainQueue : Nat → MState → ConnState → MState × ConnState
  | 0, m, conn => (m, conn)
  | fuel + 1, m, conn =>
    match heapPop m.eventStorage m.eventQueue with
    | none => (m, conn)
    | some (e2, q) =>
      let m := { m with eventQueue := q }
      let conn :=
        if !(getEvent m.eventStorage e2).isLeftEndpoint then
          let em := rightEventEmission m.eventStorage e2
          connectorAdd conn em.1 em.2
        else conn
      drainQueue fuel m conn

/-- One insertion (left-event) iteration of the main loop. -/
def insertionStep (m : MState) (os : Array Nat) (e : Nat) :
    MState × Array Nat × Option Nat × Option Nat :=
  let ins := osInsert m.eventStorage os e
  let index := ins.1
  let os' := ins.2
  let storage := m.eventStorage.modify e fun ev =>
    { ev with positionInSweepLine := some index }
  let storage := refreshPositions storage os' (index + 1)
  let prev : Option Nat := if index > 0 then os'.get? (index - 1) else none
  let next : Option Nat := if index < os'.size - 1 then os'.get? (index + 1) else none
  let storage := computeFlags storage os' e index prev
  ({ m with eventStorage := storage }, os', prev, next)

/-- One full insertion (left-event) iteration: insert, recompute flags, then
test the new event against its next and previous neighbors. -/
def insertionIteration (m : MState) (os : Array Nat) (e : Nat) :
    MState × Array Nat :=
  let step := insertionStep m os e
  let m := step.1
  let os' := step.2.1
  let prev := step.2.2.1
  let next := step.2.2.2
  let m := match next with
    | some nx => possibleIntersection m e nx
    | none => m
  let m := match prev with
    | some pv => possibleIntersection m pv e
    | none => m
  (m, os')

/-- One full removal (right-event) iteration: emit per the operation table,
erase the left twin from the status, and retest the freed neighbors.  (A
`null` stored position compares in JavaScript exactly like 0 here.) -/
def removalStep (operation : Nat) (m : MState) (os : Array Nat)
    (conn : ConnState) (e : Nat) : MState × Array Nat × ConnState :=
  let other := otherIdx m.eventStorage e
  let index := (getEvent m.eventStorage other).positionInSweepLine.getD 0
  let prev : Option Nat := if index > 0 then os.get? (index - 1) else none
  let next : Option Nat := if index < os.size - 1 then os.get? (index + 1) else none
  let eEv := getEvent m.eventStorage e
  let conn :=
    if segmentSelected operation eEv.edgeType eEv.polygonLabel
        (getEvent m.eventStorage other).isInsideOtherPolygon then
      let em := rightEventEmission m.eventStorage e
      connectorAdd conn em.1 em.2
    else conn
  let os' := osDelete os other
  let storage := refreshPositions m.eventStorage os' index
  let m := { m with eventStorage := storage }
  let m := match prev, next with
    | some pv, some nx => possibleIntersection m pv nx
    | _, _ => m
  (m, os', conn)

/-- The UNION early-exit: emit the popped right event (if it is one) and
drain the rest of the queue. -/
def unionFlush (m : MState) (conn : ConnState) (e : Nat) : MState × ConnState :=
  let conn :=
    if !(getEvent m.eventStorage e).isLeftEndpoint then
      let em := rightEventEmission m.eventStorage e
      connectorAdd conn em.1 em.2
    else conn
  drainQueue m.eventQueue.size m conn

/-- The main loop of `computeBooleanOperation`.  The source's `while` loop is
driven by `fuel`; every claim proved below holds for every fuel value. -/
def sweepLoop (operation : Nat) (MINMAXX maxsubjx : ℚ) :
    Nat → MState → Array Nat → ConnState → MState × ConnState
  | 0, m, _, conn => (m, conn)
  | fuel + 1, m, os, conn =>
    match heapPop m.eventStorage m.eventQueue with
    | none => (m, conn)
    | some (e, q) =>
      let m := { m with eventQueue := q }
      let eEv := getEvent m.eventStorage e
      -- optimization 1
      if (operation = INTERSECTION ∧ eEv.point.x > MINMAXX) ∨
          (operation = DIFFERENCE ∧ eEv.point.x > maxsubjx) then
        (m, conn)
      else if operation = UNION ∧ eEv.point.x > MINMAXX then
        unionFlush m conn e
      else if eEv.isLeftEndpoint then
        -- the line segment must be inserted into S
        let step := insertionIteration m os e
        sweepLoop operation MINMAXX maxsubjx fuel step.1 step.2 conn
      else
        -- the line segment must be removed from S
        let step := removalStep operation m os conn e
        sweepLoop operation MINMAXX maxsubjx fuel step.1 step.2.1 step.2.2

/-- `Martinez.computeBooleanOperation(operation)`: the two trivial tests, the
event-queue setup, and the sweep.  Returns the result polygon together with
the final instance state (whose `intersectionCount` backs
`getIntersectionCount`). -/
def computeBooleanOperation (subjectPolygon clippingPolygon : Polygon)
    (operation : Nat) (fuel : Nat) : Array OutContour × MState :=
  -- reset intersection tracking for new computation
  let st : MState := {}
  -- Test 1 for trivial result case
  if subjectPolygon.length * clippingPolygon.length = 0 then
    let contours : List Contour :=
      (if operation = DIFFERENCE then subjectPolygon else []) ++
        (if operation = UNION then
          (if subjectPolygon.length = 0 then clippingPolygon else subjectPolygon)
         else [])
    ((contours.map fun c => ({ points := c } : OutContour)).toArray, st)
  else
    -- Test 2 for trivial result case
    let bbsubj := boundingbox subjectPolygon
    let bbclip := boundingbox clippingPolygon
    if bboxesDisjoint bbsubj bbclip then
      let contours : List Contour :=
        (if operation = DIFFERENCE then subjectPolygon else []) ++
          (if operation = UNION then subjectPolygon ++ clippingPolygon else [])
      ((contours.map fun c => ({ points := c } : OutContour)).toArray, st)
    else
      match bbsubj, bbclip with
      | some (_, maxsubj), some (_, maxclip) =>
        let st := (polygonSegments subjectPolygon).foldl
          (fun acc s => processSegment acc s SUBJECT) st
        let st := (polygonSegments clippingPolygon).foldl
          (fun acc s => processSegment acc s CLIPPING) st
        let MINMAXX := min maxsubj.x maxclip.x
        let res := sweepLoop operation MINMAXX maxsubj.x fuel st #[] {}
        (connectorToPolygon res.2, res.1)
      | _, _ =>
        -- unreachable: a polygon without points has a disjoint bounding box
        (#[], st)

/-- `Martinez.performBooleanCalculation(operation)`: the polygon together
with a copy of the collected intersection points, plus the final state. -/
def performBooleanCalculation (subjectPolygon clippingPolygon : Polygon)
    (operation : Nat) (fuel : Nat) :
    (Array OutContour × List Point) × MState :=
  let res := computeBooleanOperation subjectPolygon clippingPolygon operation fuel
  ((res.1, res.2.intersectionPoints), res.2)

/-- `Martinez.getIntersectionCount()`. -/
def getIntersectionCount (st : MState) : Nat :=
  st.intersectionCount

/-! ## Spec-side definitions used by the claims -/

/-- The emission rule exactly as the claim/spec words it (a `Prop`, to be
compared with the code's `segmentSelected`): NORMAL edges follow the
operation-specific flag test, SAME_TRANSITION contributes to INTERSECTION and
UNION only, DIFFERENT_TRANSITION to DIFFERENCE only, NON_CONTRIBUTING never. -/
def claimedEmitRule (operation edgeType polygonLabel : Nat)
    (insideOther : Bool) : Prop :=
  (edgeType = NORMAL ∧
    ((operation = INTERSECTION ∧ insideOther = true) ∨
      (operation = UNION ∧ insideOther = false) ∨
      (operation = DIFFERENCE ∧
        ((polygonLabel = SUBJECT ∧ insideOther = false) ∨
          (polygonLabel = CLIPPING ∧ insideOther = true))) ∨
      operation = XOR)) ∨
  (edgeType = SAME_TRANSITION ∧ (operation = INTERSECTION ∨ operation = UNION)) ∨
  (edgeType = DIFFERENT_TRANSITION ∧ operation = DIFFERENCE)

/-- Ranking in processing order, as §4.3 of the spec defines the event
comparator: `a` is ranked before `b` when the comparator says `b` comes
strictly after `a`. -/
def ranksBefore (st : EventStorage) (a b : Nat) : Bool :=
  sweepEventCompare st b a

/-! Concrete example data used to instantiate theorems. -/

/-- A one-edge arena: the segment (0,0)–(2,0), left event at index 0 (with
its transition flag set) and right event at index 1. -/
def oneEdgeArena : EventStorage :=
  #[{ point := ⟨0, 0⟩, isLeftEndpoint := true, polygonLabel := SUBJECT,
      otherEvent := some 1, isInsideOutsideTransition := true },
    { point := ⟨2, 0⟩, isLeftEndpoint := false, polygonLabel := SUBJECT,
      otherEvent := some 0 }]

/-- The `Martinez` state holding only `oneEdgeArena`. -/
def oneEdgeState : MState := { eventStorage := oneEdgeArena }

/-- An emission stream that closes two contours: the four edges of the unit
square (flags `false`), then the four edges of a second square with `true`
flags — the second chain closes with spatial context `(some 0, true)` and is
classified as a hole of contour 0. -/
def holeExampleInputs : List (Seg × Bool) :=
  [(⟨⟨0, 0⟩, ⟨1, 0⟩⟩, false), (⟨⟨1, 0⟩, ⟨1, 1⟩⟩, false), (⟨⟨1, 1⟩, ⟨0, 1⟩⟩, false),
    (⟨⟨0, 1⟩, ⟨0, 0⟩⟩, false), (⟨⟨5, 5⟩, ⟨6, 5⟩⟩, true), (⟨⟨6, 5⟩, ⟨6, 6⟩⟩, true),
    (⟨⟨6, 6⟩, ⟨5, 6⟩⟩, true), (⟨⟨5, 6⟩, ⟨5, 5⟩⟩, true)]

/-- Two segments sharing their left endpoint (0,0): the subject edge
(0,0)–(1,1) (events 0,1) and the clipping edge (0,0)–(1,−1) (events 2,3).
Their intersection count is 1, at the shared endpoint. -/
def sharedEndpointState : MState :=
  { eventStorage :=
      #[{ point := ⟨0, 0⟩, isLeftEndpoint := true, polygonLabel := SUBJECT,
          otherEvent := some 1 },
        { point := ⟨1, 1⟩, isLeftEndpoint := false, polygonLabel := SUBJECT,
          otherEvent := some 0 },
        { point := ⟨0, 0⟩, isLeftEndpoint := true, polygonLabel := CLIPPING,
          otherEvent := some 3 },
        { point := ⟨1, -1⟩, isLeftEndpoint := false, polygonLabel := CLIPPING,
          otherEvent := some 2 }] }

/-! ## Supporting lemmas -/

theorem getEvent_modify (st : EventStorage) (i : Nat) (f : SweepEvent → SweepEvent)
    (j : Nat) :
    getEvent (st.modify i f) j =
      if i = j ∧ j < st.size then f (getEvent st j) else getEvent st j := by
  simp only [getEvent, Array.getD_eq_get?, Array.getElem?_modify]
  by_cases hij : i = j
  · subst hij
    by_cases hj : i < st.size
    · simp [Array.getElem?_eq_getElem hj, hj]
    · simp [Array.getElem?_eq_none_iff.mpr (Nat.le_of_not_lt hj), hj]
  · simp [hij]

theorem getEvent_push_lt (st : EventStorage) (e : SweepEvent) (j : Nat)
    (h : j < st.size) : getEvent (st.push e) j = getEvent st j := by
  simp [getEvent, Array.getD_eq_get?, Array.getElem?_push, Nat.ne_of_lt h]

theorem getEvent_push_eq (st : EventStorage) (e : SweepEvent) :
    getEvent (st.push e) st.size = e := by
  simp [getEvent, Array.getD_eq_get?, Array.getElem?_push]

theorem ite_isLeftEndpoint (c : Prop) [Decidable c] (a b : SweepEvent) :
    (ite c a b).isLeftEndpoint = ite c a.isLeftEndpoint b.isLeftEndpoint := by
  split <;> rfl

theorem ite_intersectionPoints (c : Prop) [Decidable c] (a b : MState) :
    (ite c a b).intersectionPoints = ite c a.intersectionPoints b.intersectionPoints := by
  split <;> rfl

theorem ite_intersectionCount (c : Prop) [Decidable c] (a b : MState) :
    (ite c a b).intersectionCount = ite c a.intersectionCount b.intersectionCount := by
  split <;> rfl

theorem findSegmentIntersection_count (s1 s2 : Seg) :
    (findSegmentIntersection s1 s2).1 = 0 ∨ (findSegmentIntersection s1 s2).1 = 1 ∨
      (findSegmentIntersection s1 s2).1 = 2 := by
  unfold findSegmentIntersection
  simp only []
  split_ifs <;> simp

theorem divideSegment_intersectionPoints (st : MState) (e : Nat) (p : Point) :
    (divideSegment st e p).intersectionPoints = st.intersectionPoints := by
  simp [divideSegment, storeSweepEvent]

theorem divideSegment_intersectionCount (st : MState) (e : Nat) (p : Point) :
    (divideSegment st e p).intersectionCount = st.intersectionCount := by
  simp [divideSegment, storeSweepEvent]

/-! ## Claim C1 — trivial result for disjoint bounding boxes

The claim asserts that XOR on inputs with disjoint bounding boxes returns the
concatenation of both contour sets.  The disjoint-boxes branch of
`computeBooleanOperation` only populates the result for `DIFFERENCE` and
`UNION`; for `XOR` (and `INTERSECTION`) it returns the empty polygon, and the
repository's own test suite expects exactly that
(`should handle non-overlapping polygons for XOR` expects 0 contours). -/

/-- Counterexample to C1 as stated: the unit square at the origin and a unit
square at (5,5) have disjoint bounding boxes, yet XOR returns a polygon with
zero contours rather than the two input contours. -/
theorem C1_xor_disjoint_counterexample :
    bboxesDisjoint (boundingbox [[⟨0, 0⟩, ⟨1, 0⟩, ⟨1, 1⟩, ⟨0, 1⟩]])
        (boundingbox [[⟨5, 5⟩, ⟨6, 5⟩, ⟨6, 6⟩, ⟨5, 6⟩]]) = true ∧
      (computeBooleanOperation [[⟨0, 0⟩, ⟨1, 0⟩, ⟨1, 1⟩, ⟨0, 1⟩]]
          [[⟨5, 5⟩, ⟨6, 5⟩, ⟨6, 6⟩, ⟨5, 6⟩]] XOR 100).1 = #[] ∧
      (#[] : Array OutContour) ≠
        (([[⟨0, 0⟩, ⟨1, 0⟩, ⟨1, 1⟩, ⟨0, 1⟩]] ++ [[⟨5, 5⟩, ⟨6, 5⟩, ⟨6, 6⟩, ⟨5, 6⟩]] :
            Polygon).map (fun c => ({ points := c } : OutContour))).toArray := by
  refine ⟨by decide, by decide, by decide⟩

/-- C1 (amended): for two input polygons that each have at least one contour
and whose bounding boxes are disjoint (in the sense of the code's test),
`computeBooleanOperation` returns: for UNION the concatenation of both
contour sets, for DIFFERENCE the subject's contours, for INTERSECTION a
polygon with zero contours, and for XOR a polygon with zero contours. -/
theorem C1_disjoint_boxes_trivial (subj clip : Polygon) (fuel : Nat)
    (hs : 1 ≤ subj.length) (hc : 1 ≤ clip.length)
    (hdisj : bboxesDisjoint (boundingbox subj) (boundingbox clip) = true) :
    (computeBooleanOperation subj clip UNION fuel).1 =
        ((subj ++ clip).map fun c => ({ points := c } : OutContour)).toArray ∧
      (computeBooleanOperation subj clip DIFFERENCE fuel).1 =
        (subj.map fun c => ({ points := c } : OutContour)).toArray ∧
      (computeBooleanOperation subj clip INTERSECTION fuel).1 = #[] ∧
      (computeBooleanOperation subj clip XOR fuel).1 = #[] := by
  have hmul : ¬subj.length * clip.length = 0 := by
    intro h0
    rcases Nat.mul_eq_zero.mp h0 with h1 | h1 <;> omega
  refine ⟨?_, ?_, ?_, ?_⟩ <;>
    simp [computeBooleanOperation, hmul, hdisj, UNION, DIFFERENCE, INTERSECTION, XOR]

/-- Witness for C1 (amended) at two concrete disjoint unit squares. -/
theorem C1_disjoint_boxes_trivial_witness :
    (computeBooleanOperation [[⟨0, 0⟩, ⟨1, 0⟩, ⟨1, 1⟩, ⟨0, 1⟩]]
          [[⟨5, 5⟩, ⟨6, 5⟩, ⟨6, 6⟩, ⟨5, 6⟩]] UNION 100).1 =
        (([[⟨0, 0⟩, ⟨1, 0⟩, ⟨1, 1⟩, ⟨0, 1⟩]] ++ [[⟨5, 5⟩, ⟨6, 5⟩, ⟨6, 6⟩, ⟨5, 6⟩]] :
            Polygon).map (fun c => ({ points := c } : OutContour))).toArray ∧
      (computeBooleanOperation [[⟨0, 0⟩, ⟨1, 0⟩, ⟨1, 1⟩, ⟨0, 1⟩]]
          [[⟨5, 5⟩, ⟨6, 5⟩, ⟨6, 6⟩, ⟨5, 6⟩]] DIFFERENCE 100).1 =
        (([[⟨0, 0⟩, ⟨1, 0⟩, ⟨1, 1⟩, ⟨0, 1⟩]] : Polygon).map
          fun c => ({ points := c } : OutContour)).toArray ∧
      (computeBooleanOperation [[⟨0, 0⟩, ⟨1, 0⟩, ⟨1, 1⟩, ⟨0, 1⟩]]
          [[⟨5, 5⟩, ⟨6, 5⟩, ⟨6, 6⟩, ⟨5, 6⟩]] INTERSECTION 100).1 = #[] ∧
      (computeBooleanOperation [[⟨0, 0⟩, ⟨1, 0⟩, ⟨1, 1⟩, ⟨0, 1⟩]]
          [[⟨5, 5⟩, ⟨6, 5⟩, ⟨6, 6⟩, ⟨5, 6⟩]] XOR 100).1 = #[] :=
  C1_disjoint_boxes_trivial _ _ 100 (by decide) (by decide) (by decide)

/-! ## Claim C2 — orientation of emitted segments

Every emission site passes `event.segment()` for the popped *right* event
`event`, i.e. `new Segment(event.point, event.otherEvent!.point)`: the
segment runs from the right endpoint to the left endpoint, which is
`(L.twin.point, L.point)` — the reverse of the claimed `(L.point,
L.twin.point)`.  The flag part of the claim is correct: the second argument
is `event.otherEvent!.isInsideOutsideTransition`, L's transition flag. -/

/-- Counterexample to C2 as stated: a single horizontal edge from (0,0) to
(2,0); index 0 is the left event L, index 1 the right event.  The pair handed
to the assembler at the right event is `((2,0) → (0,0), L.inOut)`, not the
claimed `(L.point, L.twin.point) = ((0,0) → (2,0))`. -/
theorem C2_orientation_counterexample :
    rightEventEmission oneEdgeArena 1 = (⟨⟨2, 0⟩, ⟨0, 0⟩⟩, true) ∧
      (⟨⟨2, 0⟩, ⟨0, 0⟩⟩ : Seg) ≠ ⟨⟨0, 0⟩, ⟨2, 0⟩⟩ := by
  refine ⟨by decide, by decide⟩

/-- C2 (amended): whenever the main loop processes a right event `e` whose
segment is selected for output (with `L = e.twin` the left event of the same
edge), the segment handed to the contour assembler is
`(L.twin.point, L.point)`, i.e. oriented from the right endpoint to the left
endpoint, and it is accompanied by L's inside-outside transition flag.
(`rightEventEmission` is the argument pair passed to `connector.addSegment`
at every emission site of the main loop.) -/
theorem C2_emission_is_right_to_left (storage : EventStorage) (e lIdx : Nat)
    (hL : (getEvent storage e).otherEvent = some lIdx)
    (hTwin : (getEvent storage lIdx).otherEvent = some e) :
    rightEventEmission storage e =
      (⟨(getEvent storage (otherIdx storage lIdx)).point, (getEvent storage lIdx).point⟩,
        (getEvent storage lIdx).isInsideOutsideTransition) := by
  simp [rightEventEmission, eventSegment, otherIdx, hL, hTwin]

/-- Witness for C2 (amended) on the concrete one-edge arena. -/
theorem C2_emission_is_right_to_left_witness :
    rightEventEmission oneEdgeArena 1 =
      (⟨(getEvent oneEdgeArena (otherIdx oneEdgeArena 0)).point,
          (getEvent oneEdgeArena 0).point⟩,
        (getEvent oneEdgeArena 0).isInsideOutsideTransition) :=
  C2_emission_is_right_to_left oneEdgeArena 1 0 (by decide) (by decide)

/-! ## Claim C4 — the emission decision table -/

/-- C4: at every right event, the removal branch emits a segment to the
connector exactly under the operation/edge-type/flag conditions stated in the
claim — `segmentSelected` is the code's `switch`, `claimedEmitRule` the
claim's table; they agree for every operation code, edge type, polygon label
and flag value (NON_CONTRIBUTING edges and unknown edge types are never
emitted). -/
theorem C4_emission_decision (operation edgeType polygonLabel : Nat)
    (insideOther : Bool) :
    segmentSelected operation edgeType polygonLabel insideOther = true ↔
      claimedEmitRule operation edgeType polygonLabel insideOther := by
  unfold segmentSelected claimedEmitRule
  simp only [INTERSECTION, UNION, DIFFERENCE, XOR, NORMAL, NON_CONTRIBUTING,
    SAME_TRANSITION, DIFFERENT_TRANSITION, SUBJECT, CLIPPING]
  split_ifs <;> cases insideOther <;> simp_all

/-! ## Claim C3 — the is-left repair in `divideSegment`

Per §4.3 of the spec the event comparator returns `true` iff its first
argument ranks strictly after its second in processing order, so "the
comparator ranks `L_new` before `e.twin`" is `ranksBefore L_new e.twin`,
i.e. `compare(e.twin, L_new) = true`.  The code swaps the flags under
`compare(L_new, e.twin) = true` — when `L_new` ranks *after* `e.twin`, the
rounding-artifact case — which is the opposite situation.  On any ordinary
subdivision (`p` strictly left of the right endpoint) `L_new` is ranked
before `e.twin` and no swap happens, refuting the claim as stated. -/

/-- Counterexample to C3 as stated: subdividing the edge (0,0)–(2,0) at the
interior point (1,0).  The comparator ranks `L_new` (index 3, at (1,0))
before `e.twin` (index 1, at (2,0)), yet the is-left flags are *not*
swapped: `L_new` keeps `true` and `e.twin` keeps `false`. -/
theorem C3_swap_counterexample :
    ranksBefore (divideSegment oneEdgeState 0 ⟨1, 0⟩).eventStorage 3 1 = true ∧
      (getEvent (divideSegment oneEdgeState 0 ⟨1, 0⟩).eventStorage 3).isLeftEndpoint =
        true ∧
      (getEvent (divideSegment oneEdgeState 0 ⟨1, 0⟩).eventStorage 1).isLeftEndpoint =
        false := by
  refine ⟨by decide, by decide, by decide⟩

/-- C3 (amended): in `divideSegment(e, p)`, after creating `R_new` (index
`N`) and `L_new` (index `N+1`), the is-left flags of `L_new` and `e.twin`
are swapped exactly when the event comparator, applied as
`compare(L_new, e.twin)`, returns `true` — that is, when it ranks `L_new`
strictly *after* `e.twin` (per §4.3 a `true` comparator result means the
first argument is processed later).  In every other case both events keep
the endpoint-side flags they were created with (`L_new` left, `R_new`
right, `e.twin` as before). -/
theorem C3_swap_iff_comparator_true (st : MState) (e : Nat) (p : Point)
    (he : e < st.eventStorage.size)
    (ho : otherIdx st.eventStorage e < st.eventStorage.size) :
    (getEvent (divideSegment st e p).eventStorage (st.eventStorage.size + 1)).isLeftEndpoint =
        !(sweepEventCompare
            ((st.eventStorage.push
                { point := p, isLeftEndpoint := false,
                  polygonLabel := (getEvent st.eventStorage e).polygonLabel,
                  otherEvent := some e,
                  edgeType := (getEvent st.eventStorage e).edgeType }).push
              { point := p, isLeftEndpoint := true,
                polygonLabel := (getEvent st.eventStorage e).polygonLabel,
                otherEvent := some (otherIdx st.eventStorage e),
                edgeType := (getEvent st.eventStorage (otherIdx st.eventStorage e)).edgeType })
            (st.eventStorage.size + 1) (otherIdx st.eventStorage e)) ∧
      (getEvent (divideSegment st e p).eventStorage (otherIdx st.eventStorage e)).isLeftEndpoint =
        (if sweepEventCompare
            ((st.eventStorage.push
                { point := p, isLeftEndpoint := false,
                  polygonLabel := (getEvent st.eventStorage e).polygonLabel,
                  otherEvent := some e,
                  edgeType := (getEvent st.eventStorage e).edgeType }).push
              { point := p, isLeftEndpoint := true,
                polygonLabel := (getEvent st.eventStorage e).polygonLabel,
                otherEvent := some (otherIdx st.eventStorage e),
                edgeType := (getEvent st.eventStorage (otherIdx st.eventStorage e)).edgeType })
            (st.eventStorage.size + 1) (otherIdx st.eventStorage e) = true then true
         else (getEvent st.eventStorage (otherIdx st.eventStorage e)).isLeftEndpoint) ∧
      (getEvent (divideSegment st e p).eventStorage st.eventStorage.size).isLeftEndpoint =
        false := by
  have hsz : ∀ a b : SweepEvent, ((st.eventStorage.push a).push b).size =
      st.eventStorage.size + 2 := by simp
  unfold divideSegment storeSweepEvent
  set N := st.eventStorage.size with hN
  set other := otherIdx st.eventStorage e with hother
  have he1 : e ≠ N + 1 := by omega
  have ho1 : other ≠ N + 1 := by omega
  have he0 : e ≠ N := Nat.ne_of_lt he
  have ho0 : other ≠ N := Nat.ne_of_lt ho
  have hpe : ∀ a b : SweepEvent,
      getEvent ((st.eventStorage.push a).push b) (N + 1) = b := by
    intro a b
    have h2 := getEvent_push_eq (st.eventStorage.push a) b
    simpa using h2
  by_cases hc : sweepEventCompare
      ((st.eventStorage.push
          { point := p, isLeftEndpoint := false,
            polygonLabel := (getEvent st.eventStorage e).polygonLabel,
            otherEvent := some e,
            edgeType := (getEvent st.eventStorage e).edgeType }).push
        { point := p, isLeftEndpoint := true,
          polygonLabel := (getEvent st.eventStorage e).polygonLabel,
          otherEvent := some other,
          edgeType := (getEvent st.eventStorage other).edgeType })
      (N + 1) other = true <;>
    simp [getEvent_modify, getEvent_push_lt, getEvent_push_eq, hsz, hc,
      ite_isLeftEndpoint, hN, hpe,
      he1, ho1, he0, ho0, Ne.symm he1, Ne.symm ho1, Ne.symm he0, Ne.symm ho0,
      he, ho, Nat.lt_succ_of_lt, Nat.lt_add_right]

/-- Witness for C3 (amended) on the concrete one-edge arena, divided at its
interior point (1,0). -/
theorem C3_swap_iff_comparator_true_witness :
    (getEvent (divideSegment oneEdgeState 0 ⟨1, 0⟩).eventStorage
        (oneEdgeState.eventStorage.size + 1)).isLeftEndpoint =
        !(sweepEventCompare
            ((oneEdgeState.eventStorage.push
                { point := ⟨1, 0⟩, isLeftEndpoint := false,
                  polygonLabel := (getEvent oneEdgeState.eventStorage 0).polygonLabel,
                  otherEvent := some 0,
                  edgeType := (getEvent oneEdgeState.eventStorage 0).edgeType }).push
              { point := ⟨1, 0⟩, isLeftEndpoint := true,
                polygonLabel := (getEvent oneEdgeState.eventStorage 0).polygonLabel,
                otherEvent := some (otherIdx oneEdgeState.eventStorage 0),
                edgeType := (getEvent oneEdgeState.eventStorage
                  (otherIdx oneEdgeState.eventStorage 0)).edgeType })
            (oneEdgeState.eventStorage.size + 1) (otherIdx oneEdgeState.eventStorage 0)) ∧
      (getEvent (divideSegment oneEdgeState 0 ⟨1, 0⟩).eventStorage
          (otherIdx oneEdgeState.eventStorage 0)).isLeftEndpoint =
        (if sweepEventCompare
            ((oneEdgeState.eventStorage.push
                { point := ⟨1, 0⟩, isLeftEndpoint := false,
                  polygonLabel := (getEvent oneEdgeState.eventStorage 0).polygonLabel,
                  otherEvent := some 0,
                  edgeType := (getEvent oneEdgeState.eventStorage 0).edgeType }).push
              { point := ⟨1, 0⟩, isLeftEndpoint := true,
                polygonLabel := (getEvent oneEdgeState.eventStorage 0).polygonLabel,
                otherEvent := some (otherIdx oneEdgeState.eventStorage 0),
                edgeType := (getEvent oneEdgeState.eventStorage
                  (otherIdx oneEdgeState.eventStorage 0)).edgeType })
            (oneEdgeState.eventStorage.size + 1)
            (otherIdx oneEdgeState.eventStorage 0) = true then true
         else (getEvent oneEdgeState.eventStorage
            (otherIdx oneEdgeState.eventStorage 0)).isLeftEndpoint) ∧
      (getEvent (divideSegment oneEdgeState 0 ⟨1, 0⟩).eventStorage
          oneEdgeState.eventStorage.size).isLeftEndpoint = false :=
  C3_swap_iff_comparator_true oneEdgeState 0 ⟨1, 0⟩ (by decide) (by decide)

/-! ## Claim C7 — accumulation of intersection points

`possibleIntersection` returns *before* recording anything when the single
intersection point is a shared endpoint of both segments, and when a
collinear overlap involves two edges of the same polygon.  A count-1
intersection therefore does not always append a point, refuting the claim as
stated; outside those two filtered cases the accumulation is exactly as the
claim describes, with no deduplication. -/

/-- Counterexample to C7 as stated: edges (0,0)–(1,1) and (0,0)–(1,−1) share
the left endpoint (0,0); `findSegmentIntersection` reports one intersection,
yet `possibleIntersection` appends no point (and counts nothing). -/
theorem C7_shared_endpoint_counterexample :
    (findSegmentIntersection (eventSegment sharedEndpointState.eventStorage 0)
        (eventSegment sharedEndpointState.eventStorage 2)).1 = 1 ∧
      (possibleIntersection sharedEndpointState 0 2).intersectionPoints = [] ∧
      (possibleIntersection sharedEndpointState 0 2).intersectionCount = 0 := by
  have h0 : eventSegment sharedEndpointState.eventStorage 0 = ⟨⟨0, 0⟩, ⟨1, 1⟩⟩ := by
    decide
  have h2 : eventSegment sharedEndpointState.eventStorage 2 = ⟨⟨0, 0⟩, ⟨1, -1⟩⟩ := by
    decide
  have hfi : findSegmentIntersection (eventSegment sharedEndpointState.eventStorage 0)
      (eventSegment sharedEndpointState.eventStorage 2) = (1, ⟨0, 0⟩, ⟨0, 0⟩) := by
    rw [h0, h2]
    norm_num [findSegmentIntersection, sqrEpsilon, snapDistance, snapToEndpoints,
      closeToPoint]
  refine ⟨by rw [hfi], ?_, ?_⟩ <;>
    · unfold possibleIntersection
      simp only [hfi]
      norm_num [sharedEndpointState, getEvent, otherIdx]

/-- C7 (amended): one call of `possibleIntersection` on neighbor events `e1`,
`e2` appends to the `intersections` accumulator exactly: nothing when the
segments do not intersect, when the single intersection point is an endpoint
shared by both segments, or when a collinear overlap joins two edges of the
same polygon; one point for any other count-1 intersection; and both overlap
endpoints for any other count-2 collinear overlap.  Points are appended at
the end of the list; nothing is ever removed or deduplicated. -/
theorem C7_points_accumulation (st : MState) (e1 e2 : Nat) (n : Nat)
    (ip1 ip2 : Point)
    (hfi : findSegmentIntersection (eventSegment st.eventStorage e1)
        (eventSegment st.eventStorage e2) = (n, ip1, ip2)) :
    (possibleIntersection st e1 e2).intersectionPoints =
      st.intersectionPoints ++
        (if n = 0 ∨
            (n = 1 ∧
              ((getEvent st.eventStorage e1).point = (getEvent st.eventStorage e2).point ∨
                (getEvent st.eventStorage (otherIdx st.eventStorage e1)).point =
                  (getEvent st.eventStorage (otherIdx st.eventStorage e2)).point)) ∨
            (n = 2 ∧
              (getEvent st.eventStorage e1).polygonLabel =
                (getEvent st.eventStorage e2).polygonLabel) then []
         else if n = 1 then [ip1] else [ip1, ip2]) := by
  have hn : n = 0 ∨ n = 1 ∨ n = 2 := by
    have h2 := findSegmentIntersection_count (eventSegment st.eventStorage e1)
      (eventSegment st.eventStorage e2)
    rw [hfi] at h2
    simpa using h2
  unfold possibleIntersection
  simp only [hfi]
  rcases hn with h | h | h <;> subst h
  · simp
  · by_cases hsh : (getEvent st.eventStorage e1).point = (getEvent st.eventStorage e2).point ∨
        (getEvent st.eventStorage (otherIdx st.eventStorage e1)).point =
          (getEvent st.eventStorage (otherIdx st.eventStorage e2)).point
    · simp [hsh]
    · simp [hsh, ite_intersectionPoints, divideSegment_intersectionPoints]
  · by_cases hsame : (getEvent st.eventStorage e1).polygonLabel =
        (getEvent st.eventStorage e2).polygonLabel
    · simp [hsame]
    · simp [hsame, ite_intersectionPoints, divideSegment_intersectionPoints]

/-- Witness for C7 (amended) at the shared-endpoint arena: the count-1
intersection at the shared endpoint appends nothing. -/
theorem C7_points_accumulation_witness :
    (possibleIntersection sharedEndpointState 0 2).intersectionPoints =
      sharedEndpointState.intersectionPoints ++
        (if (1 : Nat) = 0 ∨
            ((1 : Nat) = 1 ∧
              ((getEvent sharedEndpointState.eventStorage 0).point =
                  (getEvent sharedEndpointState.eventStorage 2).point ∨
                (getEvent sharedEndpointState.eventStorage
                    (otherIdx sharedEndpointState.eventStorage 0)).point =
                  (getEvent sharedEndpointState.eventStorage
                    (otherIdx sharedEndpointState.eventStorage 2)).point)) ∨
            ((1 : Nat) = 2 ∧
              (getEvent sharedEndpointState.eventStorage 0).polygonLabel =
                (getEvent sharedEndpointState.eventStorage 2).polygonLabel) then []
         else if (1 : Nat) = 1 then [(⟨0, 0⟩ : Point)] else [⟨0, 0⟩, ⟨0, 0⟩]) :=
  C7_points_accumulation sharedEndpointState 0 2 1 ⟨0, 0⟩ ⟨0, 0⟩ (by
    have h0 : eventSegment sharedEndpointState.eventStorage 0 = ⟨⟨0, 0⟩, ⟨1, 1⟩⟩ := by
      decide
    have h2 : eventSegment sharedEndpointState.eventStorage 2 = ⟨⟨0, 0⟩, ⟨1, -1⟩⟩ := by
      decide
    rw [h0, h2]
    norm_num [findSegmentIntersection, sqrEpsilon, snapDistance, snapToEndpoints,
      closeToPoint])

/-! ## Claim C8 — endpoint snapping in `findSegmentIntersection`

The snapping chain is an `else if` cascade over the endpoints in the fixed
order `s1.begin, s1.end, s2.begin, s2.end`: the computed point is replaced by
the *first* endpoint within the snapping distance, not by an arbitrary
("any") close endpoint.  When the computed point is within `δ` of several
endpoints — which two crossing segments shorter than `δ` realize — the claim
as stated picks the wrong endpoint.  The parallel and collinear branches
return their points without any snapping, as the claim says. -/

/-- Counterexample to C8 as stated: the segments
(−4·10⁻⁹,0)–(4·10⁻⁹,0) and (0,−4·10⁻⁹)–(0,4·10⁻⁹) cross at (0,0), which is
within δ = 10⁻⁸ of all four endpoints (per coordinate); the claim then
requires the result to equal `s1.end = (4·10⁻⁹, 0)` ("any ... that endpoint"),
but the chain returns the first close endpoint `s1.begin = (−4·10⁻⁹, 0)`. -/
theorem C8_snap_counterexample :
    closeToPoint ⟨0, 0⟩ ⟨1 / 250000000, 0⟩ = true ∧
      snapToEndpoints ⟨0, 0⟩ ⟨-1 / 250000000, 0⟩ ⟨1 / 250000000, 0⟩ ⟨0, -1 / 250000000⟩
          ⟨0, 1 / 250000000⟩ = ⟨-1 / 250000000, 0⟩ ∧
      (⟨-1 / 250000000, 0⟩ : Point) ≠ ⟨1 / 250000000, 0⟩ ∧
      findSegmentIntersection ⟨⟨-1 / 250000000, 0⟩, ⟨1 / 250000000, 0⟩⟩
          ⟨⟨0, -1 / 250000000⟩, ⟨0, 1 / 250000000⟩⟩ =
        (1, ⟨-1 / 250000000, 0⟩, ⟨0, 0⟩) := by
  have habs : |(1 : ℚ) / 250000000| = 1 / 250000000 := by
    rw [abs_of_pos]
    norm_num
  refine ⟨?_, ?_, ?_, ?_⟩ <;>
    norm_num [findSegmentIntersection, snapToEndpoints, closeToPoint, sqrEpsilon,
      snapDistance, Point.mk.injEq, habs]

/-- C8 (amended): (i) the non-parallel branch replaces the computed point by
the *first* of the four endpoints `s1.begin, s1.end, s2.begin, s2.end` lying
within the snapping distance δ in each coordinate (and leaves it unchanged
when none is close); (ii) the parallel branch returns no point; (iii) the
collinear branch returns the raw interpolated overlap endpoints with no
snapping applied. -/
theorem C8_snapping_structure :
    (∀ p p0 p1 p2 p3 : Point,
        snapToEndpoints p p0 p1 p2 p3 =
          (([p0, p1, p2, p3].find? fun q => closeToPoint p q).getD p)) ∧
      (∀ s1 s2 : Seg,
        ¬((s1.endPoint.x - s1.beginPoint.x) * (s2.endPoint.y - s2.beginPoint.y) -
              (s1.endPoint.y - s1.beginPoint.y) * (s2.endPoint.x - s2.beginPoint.x)) *
            ((s1.endPoint.x - s1.beginPoint.x) * (s2.endPoint.y - s2.beginPoint.y) -
              (s1.endPoint.y - s1.beginPoint.y) * (s2.endPoint.x - s2.beginPoint.x)) >
            sqrEpsilon *
              ((s1.endPoint.x - s1.beginPoint.x) * (s1.endPoint.x - s1.beginPoint.x) +
                (s1.endPoint.y - s1.beginPoint.y) * (s1.endPoint.y - s1.beginPoint.y)) *
              ((s2.endPoint.x - s2.beginPoint.x) * (s2.endPoint.x - s2.beginPoint.x) +
                (s2.endPoint.y - s2.beginPoint.y) * (s2.endPoint.y - s2.beginPoint.y)) →
        ((s2.beginPoint.x - s1.beginPoint.x) * (s1.endPoint.y - s1.beginPoint.y) -
              (s2.beginPoint.y - s1.beginPoint.y) * (s1.endPoint.x - s1.beginPoint.x)) *
            ((s2.beginPoint.x - s1.beginPoint.x) * (s1.endPoint.y - s1.beginPoint.y) -
              (s2.beginPoint.y - s1.beginPoint.y) * (s1.endPoint.x - s1.beginPoint.x)) >
            sqrEpsilon *
              ((s1.endPoint.x - s1.beginPoint.x) * (s1.endPoint.x - s1.beginPoint.x) +
                (s1.endPoint.y - s1.beginPoint.y) * (s1.endPoint.y - s1.beginPoint.y)) *
              ((s2.beginPoint.x - s1.beginPoint.x) * (s2.beginPoint.x - s1.beginPoint.x) +
                (s2.beginPoint.y - s1.beginPoint.y) * (s2.beginPoint.y - s1.beginPoint.y)) →
        findSegmentIntersection s1 s2 = (0, ⟨0, 0⟩, ⟨0, 0⟩)) ∧
      ∀ s1 s2 : Seg,
        ¬((s1.endPoint.x - s1.beginPoint.x) * (s2.endPoint.y - s2.beginPoint.y) -
              (s1.endPoint.y - s1.beginPoint.y) * (s2.endPoint.x - s2.beginPoint.x)) *
            ((s1.endPoint.x - s1.beginPoint.x) * (s2.endPoint.y - s2.beginPoint.y) -
              (s1.endPoint.y - s1.beginPoint.y) * (s2.endPoint.x - s2.beginPoint.x)) >
            sqrEpsilon *
              ((s1.endPoint.x - s1.beginPoint.x) * (s1.endPoint.x - s1.beginPoint.x) +
                (s1.endPoint.y - s1.beginPoint.y) * (s1.endPoint.y - s1.beginPoint.y)) *
              ((s2.endPoint.x - s2.beginPoint.x) * (s2.endPoint.x - s2.beginPoint.x) +
                (s2.endPoint.y - s2.beginPoint.y) * (s2.endPoint.y - s2.beginPoint.y)) →
        ¬((s2.beginPoint.x - s1.beginPoint.x) * (s1.endPoint.y - s1.beginPoint.y) -
              (s2.beginPoint.y - s1.beginPoint.y) * (s1.endPoint.x - s1.beginPoint.x)) *
            ((s2.beginPoint.x - s1.beginPoint.x) * (s1.endPoint.y - s1.beginPoint.y) -
              (s2.beginPoint.y - s1.beginPoint.y) * (s1.endPoint.x - s1.beginPoint.x)) >
            sqrEpsilon *
              ((s1.endPoint.x - s1.beginPoint.x) * (s1.endPoint.x - s1.beginPoint.x) +
                (s1.endPoint.y - s1.beginPoint.y) * (s1.endPoint.y - s1.beginPoint.y)) *
              ((s2.beginPoint.x - s1.beginPoint.x) * (s2.beginPoint.x - s1.beginPoint.x) +
                (s2.beginPoint.y - s1.beginPoint.y) * (s2.beginPoint.y - s1.beginPoint.y)) →
        findSegmentIntersection s1 s2 =
          (let d0x := s1.endPoint.x - s1.beginPoint.x
           let d0y := s1.endPoint.y - s1.beginPoint.y
           let d1x := s2.endPoint.x - s2.beginPoint.x
           let d1y := s2.endPoint.y - s2.beginPoint.y
           let Ex := s2.beginPoint.x - s1.beginPoint.x
           let Ey := s2.beginPoint.y - s1.beginPoint.y
           let sqrLen0 := d0x * d0x + d0y * d0y
           let s0 := (d0x * Ex + d0y * Ey) / sqrLen0
           let s1' := s0 + (d0x * d1x + d0y * d1y) / sqrLen0
           let wmin := max 0 (min s0 s1')
           let wmax := min 1 (max s0 s1')
           if wmin > wmax then (0, (⟨0, 0⟩ : Point), (⟨0, 0⟩ : Point))
           else if wmin = wmax then
             (1, ⟨s1.beginPoint.x + wmin * d0x, s1.beginPoint.y + wmin * d0y⟩, ⟨0, 0⟩)
           else
             (2, ⟨s1.beginPoint.x + wmin * d0x, s1.beginPoint.y + wmin * d0y⟩,
               ⟨s1.beginPoint.x + wmax * d0x, s1.beginPoint.y + wmax * d0y⟩)) := by
  refine ⟨?_, ?_, ?_⟩
  · intro p p0 p1 p2 p3
    unfold snapToEndpoints
    rcases h0 : closeToPoint p p0 <;> rcases h1 : closeToPoint p p1 <;>
      rcases h2 : closeToPoint p p2 <;> rcases h3 : closeToPoint p p3 <;>
      simp [List.find?, h0, h1, h2, h3]
  · intro s1 s2 hnp hpar
    unfold findSegmentIntersection
    simp only []
    rw [if_neg hnp, if_pos hpar]
  · intro s1 s2 hnp hcol
    unfold findSegmentIntersection
    simp only []
    rw [if_neg hnp, if_neg hcol]

/-- Witness for C8 (amended): the snap chain on the tiny crossing segments,
the parallel pair (0,0)–(1,0) / (0,1)–(1,1), and the collinear overlap
(0,0)–(3,0) / (1,0)–(4,0) whose overlap interval is [(1,0), (3,0)]. -/
theorem C8_snapping_structure_witness :
    (snapToEndpoints ⟨0, 0⟩ ⟨-1 / 250000000, 0⟩ ⟨1 / 250000000, 0⟩ ⟨0, -1 / 250000000⟩
        ⟨0, 1 / 250000000⟩ =
      (([(⟨-1 / 250000000, 0⟩ : Point), ⟨1 / 250000000, 0⟩, ⟨0, -1 / 250000000⟩,
          ⟨0, 1 / 250000000⟩].find? fun q => closeToPoint ⟨0, 0⟩ q).getD ⟨0, 0⟩)) ∧
      findSegmentIntersection ⟨⟨0, 0⟩, ⟨1, 0⟩⟩ ⟨⟨0, 1⟩, ⟨1, 1⟩⟩ = (0, ⟨0, 0⟩, ⟨0, 0⟩) ∧
      findSegmentIntersection ⟨⟨0, 0⟩, ⟨3, 0⟩⟩ ⟨⟨1, 0⟩, ⟨4, 0⟩⟩ = (2, ⟨1, 0⟩, ⟨3, 0⟩) := by
  refine ⟨C8_snapping_structure.1 ⟨0, 0⟩ ⟨-1 / 250000000, 0⟩ ⟨1 / 250000000, 0⟩
      ⟨0, -1 / 250000000⟩ ⟨0, 1 / 250000000⟩, ?_, ?_⟩
  · exact C8_snapping_structure.2.1 ⟨⟨0, 0⟩, ⟨1, 0⟩⟩ ⟨⟨0, 1⟩, ⟨1, 1⟩⟩
      (by norm_num [sqrEpsilon]) (by norm_num [sqrEpsilon])
  · refine (C8_snapping_structure.2.2 ⟨⟨0, 0⟩, ⟨3, 0⟩⟩ ⟨⟨1, 0⟩, ⟨4, 0⟩⟩
      (by norm_num [sqrEpsilon]) (by norm_num [sqrEpsilon])).trans ?_
    norm_num [Point.mk.injEq]

/-! ## Claim C10 — the intersection counter matches the collected points

Supporting lemmas: every state transformer of the sweep either leaves
`intersectionCount` and `intersectionPoints` untouched, or (in
`possibleIntersection`) adds `n` to the counter and appends exactly `n`
points in the same guarded block. -/

theorem processSegment_stats (st : MState) (s : Seg) (pl : Nat) :
    (processSegment st s pl).intersectionPoints = st.intersectionPoints ∧
      (processSegment st s pl).intersectionCount = st.intersectionCount := by
  unfold processSegment storeSweepEvent
  split <;> simp

theorem possibleIntersection_inv (st : MState) (e1 e2 : Nat)
    (h : st.intersectionPoints.length = st.intersectionCount) :
    (possibleIntersection st e1 e2).intersectionPoints.length =
      (possibleIntersection st e1 e2).intersectionCount := by
  rcases hfi : findSegmentIntersection (eventSegment st.eventStorage e1)
      (eventSegment st.eventStorage e2) with ⟨n, ip1, ip2⟩
  have hn : n = 0 ∨ n = 1 ∨ n = 2 := by
    have h2 := findSegmentIntersection_count (eventSegment st.eventStorage e1)
      (eventSegment st.eventStorage e2)
    rw [hfi] at h2
    simpa using h2
  unfold possibleIntersection
  simp only [hfi]
  rcases hn with hh | hh | hh <;> subst hh
  · simp [h]
  · by_cases hsh : (getEvent st.eventStorage e1).point = (getEvent st.eventStorage e2).point ∨
        (getEvent st.eventStorage (otherIdx st.eventStorage e1)).point =
          (getEvent st.eventStorage (otherIdx st.eventStorage e2)).point
    · simp [hsh, h]
    · simp [hsh, h, ite_intersectionPoints, ite_intersectionCount,
        divideSegment_intersectionPoints, divideSegment_intersectionCount]
  · by_cases hsame : (getEvent st.eventStorage e1).polygonLabel =
        (getEvent st.eventStorage e2).polygonLabel
    · simp [hsame, h]
    · simp [hsame, h, ite_intersectionPoints, ite_intersectionCount,
        divideSegment_intersectionPoints, divideSegment_intersectionCount]

theorem drainQueue_stats (fuel : Nat) :
    ∀ (m : MState) (conn : ConnState),
      (drainQueue fuel m conn).1.intersectionPoints = m.intersectionPoints ∧
        (drainQueue fuel m conn).1.intersectionCount = m.intersectionCount := by
  induction fuel with
  | zero => intro m conn; exact ⟨rfl, rfl⟩
  | succ f ih =>
    intro m conn
    unfold drainQueue
    rcases hpop : heapPop m.eventStorage m.eventQueue with _ | ⟨e2, q⟩
    · exact ⟨rfl, rfl⟩
    · simpa using ih { m with eventQueue := q } _

theorem insertionStep_stats (m : MState) (os : Array Nat) (e : Nat) :
    (insertionStep m os e).1.intersectionPoints = m.intersectionPoints ∧
      (insertionStep m os e).1.intersectionCount = m.intersectionCount := by
  unfold insertionStep
  exact ⟨rfl, rfl⟩

theorem insertionIteration_inv (m : MState) (os : Array Nat) (e : Nat)
    (h : m.intersectionPoints.length = m.intersectionCount) :
    (insertionIteration m os e).1.intersectionPoints.length =
      (insertionIteration m os e).1.intersectionCount := by
  unfold insertionIteration
  have hs := insertionStep_stats m os e
  have h0 : (insertionStep m os e).1.intersectionPoints.length =
      (insertionStep m os e).1.intersectionCount := by
    rw [hs.1, hs.2]
    exact h
  rcases hnx : (insertionStep m os e).2.2.2 with _ | nx <;>
    rcases hpv : (insertionStep m os e).2.2.1 with _ | pv <;>
    simp only [hnx, hpv] <;>
    first
      | exact h0
      | exact possibleIntersection_inv _ _ _ h0
      | exact possibleIntersection_inv _ _ _ (possibleIntersection_inv _ _ _ h0)

theorem removalStep_inv (operation : Nat) (m : MState) (os : Array Nat)
    (conn : ConnState) (e : Nat)
    (h : m.intersectionPoints.length = m.intersectionCount) :
    (removalStep operation m os conn e).1.intersectionPoints.length =
      (removalStep operation m os conn e).1.intersectionCount := by
  unfold removalStep
  simp only []
  rcases hpv : (if (getEvent m.eventStorage (otherIdx m.eventStorage e)).positionInSweepLine.getD 0 > 0 then
      os.get? ((getEvent m.eventStorage (otherIdx m.eventStorage e)).positionInSweepLine.getD 0 - 1)
    else none) with _ | pv <;>
    rcases hnx : (if (getEvent m.eventStorage (otherIdx m.eventStorage e)).positionInSweepLine.getD 0 <
        os.size - 1 then
      os.get? ((getEvent m.eventStorage (otherIdx m.eventStorage e)).positionInSweepLine.getD 0 + 1)
    else none) with _ | nx <;>
    simp only [hpv, hnx] <;>
    first
      | exact h
      | exact possibleIntersection_inv _ _ _ h

theorem unionFlush_inv (m : MState) (conn : ConnState) (e : Nat)
    (h : m.intersectionPoints.length = m.intersectionCount) :
    (unionFlush m conn e).1.intersectionPoints.length =
      (unionFlush m conn e).1.intersectionCount := by
  unfold unionFlush
  have hd := drainQueue_stats m.eventQueue.size m
  rcases (!(getEvent m.eventStorage e).isLeftEndpoint : Bool) with _ | _ <;>
    simp only [] <;>
    rw [(hd _).1, (hd _).2] <;>
    exact h

theorem sweepLoop_inv (operation : Nat) (MINMAXX maxsubjx : ℚ) (fuel : Nat) :
    ∀ (m : MState) (os : Array Nat) (conn : ConnState),
      m.intersectionPoints.length = m.intersectionCount →
      (sweepLoop operation MINMAXX maxsubjx fuel m os conn).1.intersectionPoints.length =
        (sweepLoop operation MINMAXX maxsubjx fuel m os conn).1.intersectionCount := by
  induction fuel with
  | zero => intro m os conn h; exact h
  | succ f ih =>
    intro m os conn h
    unfold sweepLoop
    rcases hpop : heapPop m.eventStorage m.eventQueue with _ | ⟨e, q⟩
    · exact h
    · simp only []
      split_ifs
      · exact h
      · exact unionFlush_inv _ _ _ h
      · exact ih _ _ _ (insertionIteration_inv _ _ _ h)
      · exact ih _ _ _ (removalStep_inv _ _ _ _ _ h)

theorem foldl_processSegment_inv (l : List Seg) (pl : Nat) :
    ∀ st : MState, st.intersectionPoints.length = st.intersectionCount →
      (l.foldl (fun acc s => processSegment acc s pl) st).intersectionPoints.length =
        (l.foldl (fun acc s => processSegment acc s pl) st).intersectionCount := by
  induction l with
  | nil => intro st h; exact h
  | cons s rest ih =>
    intro st h
    have hs := processSegment_stats st s pl
    exact ih _ (by rw [hs.1, hs.2]; exact h)

/-- C10: after `performBooleanCalculation`, the length of the returned
`intersections` array equals the value `getIntersectionCount()` reports.
Both are reset together at the start of each computation (the fresh state
has counter 0 and an empty list), and every detected intersection of
multiplicity `n` adds `n` to the counter while appending exactly `n` points
(`possibleIntersection_inv` is that step invariant); the equality therefore
holds at every exit of the sweep, for every input pair, operation code and
fuel bound. -/
theorem C10_count_equals_collected_points (subjectPolygon clippingPolygon : Polygon)
    (operation fuel : Nat) :
    (performBooleanCalculation subjectPolygon clippingPolygon operation fuel).1.2.length =
      getIntersectionCount
        (performBooleanCalculation subjectPolygon clippingPolygon operation fuel).2 := by
  unfold performBooleanCalculation getIntersectionCount computeBooleanOperation
  simp only []
  split_ifs <;>
    rcases boundingbox subjectPolygon with _ | ⟨mins, maxs⟩ <;>
    rcases boundingbox clippingPolygon with _ | ⟨minc, maxc⟩ <;>
    simp only [] <;>
    first
      | rfl
      | · apply sweepLoop_inv
          apply foldl_processSegment_inv
          apply foldl_processSegment_inv
          rfl

/-! ## Claim C5 — the hole/boundary hierarchy invariant

Layer 1: every closed chain records, as its spatial context, the index of a
chain closed strictly earlier (`connectorAdd_contexts`); layer 2: the
classification pass of `toPolygon` then maintains that every hole's parent is
a non-hole with depth exactly one less.  Since a hole's parent is never
itself a hole, the parent relation has no chains of length two and hence no
cycles (a cycle would require some parent to be a hole); the theorem states
this as `p ≠ i` together with `holeOf p = none`. -/

theorem connectorAdd_contexts (conn : ConnState) (s : Seg) (b : Bool)
    (h1 : ∀ k q, (conn.closedChains.getD k { pointList := [] }).spatialPrev = some q → q < k)
    (h2 : ∀ q, conn.prevInResult = some q → q < conn.closedChains.length) :
    (∀ k q, ((connectorAdd conn s b).closedChains.getD k { pointList := [] }).spatialPrev =
        some q → q < k) ∧
      (∀ q, (connectorAdd conn s b).prevInResult = some q →
        q < (connectorAdd conn s b).closedChains.length) := by
  unfold connectorAdd
  rcases tryLinkFirst s conn.openChains with _ | ⟨before, c', after⟩
  · exact ⟨h1, h2⟩
  · simp only []
    by_cases hc : c'.isChainClosed
    · simp only [hc, if_true]
      refine ⟨?_, ?_⟩
      · intro k q hk
        rcases Nat.lt_trichotomy k conn.closedChains.length with hlt | heq | hgt
        · rw [List.getD_append _ _ _ _ hlt] at hk
          exact h1 k q hk
        · rw [List.getD_eq_getElem?_getD, heq, List.getElem?_concat_length] at hk
          simp only [Option.getD_some] at hk
          have := h2 q hk
          omega
        · rw [List.getD_append_right _ _ _ _ (Nat.le_of_lt hgt)] at hk
          rcases hkl : k - conn.closedChains.length with _ | m
          · omega
          · rw [hkl] at hk
            simp [List.getD] at hk
      · intro q hq
        simp only [Option.some.injEq] at hq
        subst hq
        simp [List.length_append]
    · simp only [Bool.not_eq_true] at hc
      simp only [hc, Bool.false_eq_true, if_false]
      rcases tryMergeFirst c' after with _ | ⟨merged, after'⟩ <;>
        exact ⟨h1, h2⟩

theorem connectorFold_contexts (inputs : List (Seg × Bool)) :
    (∀ k q, ((connectorFold inputs).closedChains.getD k { pointList := [] }).spatialPrev =
        some q → q < k) ∧
      (∀ q, (connectorFold inputs).prevInResult = some q →
        q < (connectorFold inputs).closedChains.length) := by
  have main : ∀ (l : List (Seg × Bool)) (conn : ConnState),
      ((∀ k q, (conn.closedChains.getD k { pointList := [] }).spatialPrev = some q → q < k) ∧
        (∀ q, conn.prevInResult = some q → q < conn.closedChains.length)) →
      ((∀ k q, ((l.foldl (fun c sb => connectorAdd c sb.1 sb.2) conn).closedChains.getD k
          { pointList := [] }).spatialPrev = some q → q < k) ∧
        (∀ q, (l.foldl (fun c sb => connectorAdd c sb.1 sb.2) conn).prevInResult = some q →
          q < (l.foldl (fun c sb => connectorAdd c sb.1 sb.2) conn).closedChains.length)) := by
    intro l
    induction l with
    | nil => intro conn h; exact h
    | cons sb rest ih =>
      intro conn h
      exact ih _ (connectorAdd_contexts conn sb.1 sb.2 h.1 h.2)
  refine main inputs {} ⟨?_, ?_⟩
  · intro k q hk
    simp [List.getD] at hk
  · intro q hq
    simp at hq

theorem getOC_modify (arr : Array OutContour) (i : Nat) (f : OutContour → OutContour)
    (j : Nat) :
    (arr.modify i f).getD j defaultContour =
      if i = j ∧ j < arr.size then f (arr.getD j defaultContour)
      else arr.getD j defaultContour := by
  simp only [Array.getD_eq_get?, Array.getElem?_modify]
  by_cases hij : i = j
  · subst hij
    by_cases hj : i < arr.size
    · simp [Array.getElem?_eq_getElem hj, hj]
    · simp [Array.getElem?_eq_none_iff.mpr (Nat.le_of_not_lt hj), hj]
  · simp [hij]

theorem modify_setHoleOf_holeOf (arr : Array OutContour) (K : Nat) (v : Option Nat) (j : Nat) :
    ((arr.modify K fun c => { c with holeOf := v }).getD j defaultContour).holeOf =
      if K = j ∧ j < arr.size then v else (arr.getD j defaultContour).holeOf := by
  rw [getOC_modify]; split <;> rfl

theorem modify_setHoleOf_depth (arr : Array OutContour) (K : Nat) (v : Option Nat) (j : Nat) :
    ((arr.modify K fun c => { c with holeOf := v }).getD j defaultContour).depth =
      (arr.getD j defaultContour).depth := by
  rw [getOC_modify]; split <;> rfl

theorem modify_addHole_holeOf (arr : Array OutContour) (K k' : Nat) (j : Nat) :
    ((arr.modify K fun c => { c with holeIds := c.holeIds ++ [k'] }).getD j defaultContour).holeOf =
      (arr.getD j defaultContour).holeOf := by
  rw [getOC_modify]; split <;> rfl

theorem modify_addHole_depth (arr : Array OutContour) (K k' : Nat) (j : Nat) :
    ((arr.modify K fun c => { c with holeIds := c.holeIds ++ [k'] }).getD j defaultContour).depth =
      (arr.getD j defaultContour).depth := by
  rw [getOC_modify]; split <;> rfl

theorem modify_setDepth_holeOf (arr : Array OutContour) (K : Nat) (d : Nat) (j : Nat) :
    ((arr.modify K fun c => { c with depth := d }).getD j defaultContour).holeOf =
      (arr.getD j defaultContour).holeOf := by
  rw [getOC_modify]; split <;> rfl

theorem modify_setDepth_depth (arr : Array OutContour) (K : Nat) (d : Nat) (j : Nat) :
    ((arr.modify K fun c => { c with depth := d }).getD j defaultContour).depth =
      if K = j ∧ j < arr.size then d else (arr.getD j defaultContour).depth := by
  rw [getOC_modify]; split <;> rfl

set_option maxHeartbeats 1000000 in
theorem classify_step_inv (n : Nat) (arr : Array OutContour) (K prev : Nat) (τ : Bool)
    (hsz : arr.size = n) (hK : K < n) (hprev : prev < K)
    (h1 : ∀ i p, i < K → (arr.getD i defaultContour).holeOf = some p →
      p < i ∧ (arr.getD p defaultContour).holeOf = none ∧
        (arr.getD i defaultContour).depth = (arr.getD p defaultContour).depth + 1)
    (h2 : ∀ j, K ≤ j → (arr.getD j defaultContour).holeOf = none ∧
      (arr.getD j defaultContour).depth = 0) :
    (classifyContourHierarchy K (some prev) τ arr).size = n ∧
      (∀ i p, i < K + 1 →
        ((classifyContourHierarchy K (some prev) τ arr).getD i defaultContour).holeOf = some p →
        p < i ∧
          ((classifyContourHierarchy K (some prev) τ arr).getD p defaultContour).holeOf = none ∧
          ((classifyContourHierarchy K (some prev) τ arr).getD i defaultContour).depth =
            ((classifyContourHierarchy K (some prev) τ arr).getD p defaultContour).depth + 1) ∧
      (∀ j, K + 1 ≤ j →
        ((classifyContourHierarchy K (some prev) τ arr).getD j defaultContour).holeOf = none ∧
        ((classifyContourHierarchy K (some prev) τ arr).getD j defaultContour).depth = 0) := by
  have hpK : prev ≠ K := Nat.ne_of_lt hprev
  unfold classifyContourHierarchy
  rcases τ with _ | _
  · -- τ = false: only K's depth changes
    simp only [Bool.false_eq_true, if_false]
    have hHole : ∀ j, ((arr.modify K fun c =>
        { c with depth := (arr.getD prev defaultContour).depth }).getD j defaultContour).holeOf =
        (arr.getD j defaultContour).holeOf := by
      intro j
      rw [getOC_modify]
      split <;> rfl
    have hDepth : ∀ j, ((arr.modify K fun c =>
        { c with depth := (arr.getD prev defaultContour).depth }).getD j defaultContour).depth =
        if K = j ∧ j < n then (arr.getD prev defaultContour).depth
        else (arr.getD j defaultContour).depth := by
      intro j
      rw [getOC_modify, hsz]
      split <;> rfl
    refine ⟨by simp [hsz], ?_, ?_⟩
    · intro i p hi hip
      rw [hHole] at hip
      rcases Nat.lt_or_ge i K with hiK | hiK
      · have := h1 i p hiK hip
        refine ⟨this.1, ?_, ?_⟩
        · rw [hHole]; exact this.2.1
        · rw [hDepth, hDepth]
          have hiK' : ¬(K = i ∧ i < n) := by omega
          have hpK' : ¬(K = p ∧ p < n) := by
            have := this.1; omega
          rw [if_neg hiK', if_neg hpK']
          exact this.2.2
      · have hiK' : i = K := by omega
        subst hiK'
        rw [(h2 i le_rfl).1] at hip
        exact absurd hip (by simp)
    · intro j hj
      rw [hHole, hDepth]
      have : ¬(K = j ∧ j < n) := by omega
      rw [if_neg this]
      exact h2 j (by omega)
  · -- τ = true
    simp only [if_true]
    rcases hpc : (arr.getD prev defaultContour).holeOf with _ | parentIndex
    · -- prev is exterior: K becomes its hole, depth = prev.depth + 1
      simp only []
      have hHole : ∀ j,
          ((((arr.modify K fun c => { c with holeOf := some prev }).modify prev
                fun c => { c with holeIds := c.holeIds ++ [K] }).modify K
              fun c => { c with depth :=
                (((arr.modify K fun c => { c with holeOf := some prev }).modify prev
                    fun c => { c with holeIds := c.holeIds ++ [K] }).getD prev
                  defaultContour).depth + 1 }).getD j defaultContour).holeOf =
            if K = j ∧ j < n then some prev else (arr.getD j defaultContour).holeOf := by
        intro j
        rw [modify_setDepth_holeOf, modify_addHole_holeOf, modify_setHoleOf_holeOf, hsz]
      have hDprev :
          (((arr.modify K fun c => { c with holeOf := some prev }).modify prev
              fun c => { c with holeIds := c.holeIds ++ [K] }).getD prev
            defaultContour).depth = (arr.getD prev defaultContour).depth := by
        rw [modify_addHole_depth, modify_setHoleOf_depth]
      have hDepth : ∀ j,
          ((((arr.modify K fun c => { c with holeOf := some prev }).modify prev
                fun c => { c with holeIds := c.holeIds ++ [K] }).modify K
              fun c => { c with depth :=
                (((arr.modify K fun c => { c with holeOf := some prev }).modify prev
                    fun c => { c with holeIds := c.holeIds ++ [K] }).getD prev
                  defaultContour).depth + 1 }).getD j defaultContour).depth =
            if K = j ∧ j < n then (arr.getD prev defaultContour).depth + 1
            else (arr.getD j defaultContour).depth := by
        intro j
        rw [modify_setDepth_depth, hDprev, modify_addHole_depth, modify_setHoleOf_depth]
        simp [hsz]
      refine ⟨by simp [hsz], ?_, ?_⟩
      · intro i p hi hip
        rw [hHole] at hip
        rcases Nat.lt_or_ge i K with hiK | hiK
        · have hni : ¬(K = i ∧ i < n) := by omega
          rw [if_neg hni] at hip
          have := h1 i p hiK hip
          have hnp : ¬(K = p ∧ p < n) := by
            have := this.1; omega
          refine ⟨this.1, ?_, ?_⟩
          · rw [hHole, if_neg hnp]; exact this.2.1
          · rw [hDepth, hDepth, if_neg hni, if_neg hnp]; exact this.2.2
        · have hiK' : i = K := by omega
          subst hiK'
          rw [if_pos ⟨rfl, hK⟩] at hip
          have hp : p = prev := by
            simpa using hip.symm
          subst hp
          have hnp : ¬(i = p ∧ p < n) := by omega
          refine ⟨hprev, ?_, ?_⟩
          · rw [hHole, if_neg hnp]; exact hpc
          · rw [hDepth, hDepth, if_pos ⟨rfl, hK⟩, if_neg hnp]
      · intro j hj
        have hnj : ¬(K = j ∧ j < n) := by omega
        rw [hHole, hDepth, if_neg hnj, if_neg hnj]
        exact h2 j (by omega)
    · -- prev is itself a hole: K attaches to prev's parent
      simp only []
      obtain ⟨hlt, hnone, hdep⟩ := h1 prev parentIndex hprev hpc
      have hparK : parentIndex ≠ K := by omega
      have hHole : ∀ j,
          ((((arr.modify K fun c => { c with holeOf := some parentIndex }).modify parentIndex
                fun c => { c with holeIds := c.holeIds ++ [K] }).modify K
              fun c => { c with depth :=
                (((arr.modify K fun c => { c with holeOf := some parentIndex }).modify parentIndex
                    fun c => { c with holeIds := c.holeIds ++ [K] }).getD prev
                  defaultContour).depth }).getD j defaultContour).holeOf =
            if K = j ∧ j < n then some parentIndex else (arr.getD j defaultContour).holeOf := by
        intro j
        rw [modify_setDepth_holeOf, modify_addHole_holeOf, modify_setHoleOf_holeOf, hsz]
      have hDprev :
          (((arr.modify K fun c => { c with holeOf := some parentIndex }).modify parentIndex
              fun c => { c with holeIds := c.holeIds ++ [K] }).getD prev
            defaultContour).depth = (arr.getD prev defaultContour).depth := by
        rw [modify_addHole_depth, modify_setHoleOf_depth]
      have hDepth : ∀ j,
          ((((arr.modify K fun c => { c with holeOf := some parentIndex }).modify parentIndex
                fun c => { c with holeIds := c.holeIds ++ [K] }).modify K
              fun c => { c with depth :=
                (((arr.modify K fun c => { c with holeOf := some parentIndex }).modify parentIndex
                    fun c => { c with holeIds := c.holeIds ++ [K] }).getD prev
                  defaultContour).depth }).getD j defaultContour).depth =
            if K = j ∧ j < n then (arr.getD prev defaultContour).depth
            else (arr.getD j defaultContour).depth := by
        intro j
        rw [modify_setDepth_depth, hDprev, modify_addHole_depth, modify_setHoleOf_depth]
        simp [hsz]
      refine ⟨by simp [hsz], ?_, ?_⟩
      · intro i p hi hip
        rw [hHole] at hip
        rcases Nat.lt_or_ge i K with hiK | hiK
        · have hni : ¬(K = i ∧ i < n) := by omega
          rw [if_neg hni] at hip
          have := h1 i p hiK hip
          have hnp : ¬(K = p ∧ p < n) := by
            have := this.1; omega
          refine ⟨this.1, ?_, ?_⟩
          · rw [hHole, if_neg hnp]; exact this.2.1
          · rw [hDepth, hDepth, if_neg hni, if_neg hnp]; exact this.2.2
        · have hiK' : i = K := by omega
          subst hiK'
          rw [if_pos ⟨rfl, hK⟩] at hip
          have hp : p = parentIndex := by
            simpa using hip.symm
          subst hp
          have hnp : ¬(i = p ∧ p < n) := by omega
          refine ⟨by omega, ?_, ?_⟩
          · rw [hHole, if_neg hnp]; exact hnone
          · rw [hDepth, hDepth, if_pos ⟨rfl, hK⟩, if_neg hnp]
            exact hdep
      · intro j hj
        have hnj : ¬(K = j ∧ j < n) := by omega
        rw [hHole, hDepth, if_neg hnj, if_neg hnj]
        exact h2 j (by omega)

set_option maxHeartbeats 1000000 in
theorem connectorToPolygon_inv (conn : ConnState)
    (hctx : ∀ k q, (conn.closedChains.getD k { pointList := [] }).spatialPrev = some q → q < k) :
    (connectorToPolygon conn).size = conn.closedChains.length ∧
      ∀ i p, ((connectorToPolygon conn).getD i defaultContour).holeOf = some p →
        p < i ∧ ((connectorToPolygon conn).getD p defaultContour).holeOf = none ∧
          ((connectorToPolygon conn).getD i defaultContour).depth =
            ((connectorToPolygon conn).getD p defaultContour).depth + 1 := by
  unfold connectorToPolygon
  simp only []
  have main : ∀ K, K ≤ conn.closedChains.length →
      (((List.range K).foldl
          (fun arr i =>
            match (conn.closedChains.getD i { pointList := [] }).spatialPrev with
            | none => arr
            | some _ =>
              classifyContourHierarchy i
                (conn.closedChains.getD i { pointList := [] }).spatialPrev
                (conn.closedChains.getD i { pointList := [] }).spatialTransition arr)
          (conn.closedChains.map fun c => ({ points := c.pointList } : OutContour)).toArray).size =
        conn.closedChains.length) ∧
      (∀ i p, i < K →
        (((List.range K).foldl
            (fun arr i =>
              match (conn.closedChains.getD i { pointList := [] }).spatialPrev with
              | none => arr
              | some _ =>
                classifyContourHierarchy i
                  (conn.closedChains.getD i { pointList := [] }).spatialPrev
                  (conn.closedChains.getD i { pointList := [] }).spatialTransition arr)
            (conn.closedChains.map fun c =>
              ({ points := c.pointList } : OutContour)).toArray).getD i
          defaultContour).holeOf = some p →
        p < i ∧
          (((List.range K).foldl
              (fun arr i =>
                match (conn.closedChains.getD i { pointList := [] }).spatialPrev with
                | none => arr
                | some _ =>
                  classifyContourHierarchy i
                    (conn.closedChains.getD i { pointList := [] }).spatialPrev
                    (conn.closedChains.getD i { pointList := [] }).spatialTransition arr)
              (conn.closedChains.map fun c =>
                ({ points := c.pointList } : OutContour)).toArray).getD p
            defaultContour).holeOf = none ∧
          (((List.range K).foldl
              (fun arr i =>
                match (conn.closedChains.getD i { pointList := [] }).spatialPrev with
                | none => arr
                | some _ =>
                  classifyContourHierarchy i
                    (conn.closedChains.getD i { pointList := [] }).spatialPrev
                    (conn.closedChains.getD i { pointList := [] }).spatialTransition arr)
              (conn.closedChains.map fun c =>
                ({ points := c.pointList } : OutContour)).toArray).getD i
            defaultContour).depth =
            (((List.range K).foldl
                (fun arr i =>
                  match (conn.closedChains.getD i { pointList := [] }).spatialPrev with
                  | none => arr
                  | some _ =>
                    classifyContourHierarchy i
                      (conn.closedChains.getD i { pointList := [] }).spatialPrev
                      (conn.closedChains.getD i { pointList := [] }).spatialTransition arr)
                (conn.closedChains.map fun c =>
                  ({ points := c.pointList } : OutContour)).toArray).getD p
              defaultContour).depth + 1) ∧
      (∀ j, K ≤ j →
        (((List.range K).foldl
            (fun arr i =>
              match (conn.closedChains.getD i { pointList := [] }).spatialPrev with
              | none => arr
              | some _ =>
                classifyContourHierarchy i
                  (conn.closedChains.getD i { pointList := [] }).spatialPrev
                  (conn.closedChains.getD i { pointList := [] }).spatialTransition arr)
            (conn.closedChains.map fun c =>
              ({ points := c.pointList } : OutContour)).toArray).getD j
          defaultContour).holeOf = none ∧
        (((List.range K).foldl
            (fun arr i =>
              match (conn.closedChains.getD i { pointList := [] }).spatialPrev with
              | none => arr
              | some _ =>
                classifyContourHierarchy i
                  (conn.closedChains.getD i { pointList := [] }).spatialPrev
                  (conn.closedChains.getD i { pointList := [] }).spatialTransition arr)
            (conn.closedChains.map fun c =>
              ({ points := c.pointList } : OutContour)).toArray).getD j
          defaultContour).depth = 0) := by
    intro K
    induction K with
    | zero =>
      intro _
      refine ⟨by simp, ?_, ?_⟩
      · intro i p hi
        omega
      · intro j _
        rcases hj : conn.closedChains[j]? with _ | c <;>
          simp [List.range_zero, List.foldl_nil, Array.getD_eq_get?, List.getElem?_toArray,
            List.getElem?_map, hj, defaultContour]
    | succ k ih =>
      intro hK
      obtain ⟨hsz, h1, h2⟩ := ih (by omega)
      rw [List.range_succ, List.foldl_append, List.foldl_cons, List.foldl_nil]
      rcases hsp : (conn.closedChains.getD k { pointList := [] }).spatialPrev with _ | prev
      · simp only [hsp]
        refine ⟨hsz, ?_, ?_⟩
        · intro i p hi hip
          rcases Nat.lt_or_ge i k with hik | hik
          · exact h1 i p hik hip
          · have : i = k := by omega
            subst this
            rw [(h2 i le_rfl).1] at hip
            exact absurd hip (by simp)
        · intro j hj
          exact h2 j (by omega)
      · simp only [hsp]
        have hq : prev < k := hctx k prev hsp
        exact classify_step_inv conn.closedChains.length _ k prev _ hsz (by omega) hq h1 h2
  obtain ⟨hsz, h1, h2⟩ := main conn.closedChains.length le_rfl
  refine ⟨hsz, ?_⟩
  intro i p hip
  rcases Nat.lt_or_ge i conn.closedChains.length with hik | hik
  · exact h1 i p hik hip
  · exact absurd (((h2 i hik).1).symm.trans hip) (by simp)

/-- C5: in every polygon assembled from any stream of emitted segments, each
contour marked as a hole has a parent index pointing to a contour inside the
polygon that is not itself a hole, the hole's depth equals its parent's
depth plus one, and the parent relation contains no cycles (the parent of a
hole is never a hole, so no parent chain can return to a hole). -/
theorem C5_hole_parent_invariant (inputs : List (Seg × Bool)) (i p : Nat)
    (h : ((connectorToPolygon (connectorFold inputs)).getD i defaultContour).holeOf = some p) :
    p < (connectorToPolygon (connectorFold inputs)).size ∧ p ≠ i ∧
      ((connectorToPolygon (connectorFold inputs)).getD p defaultContour).holeOf = none ∧
      ((connectorToPolygon (connectorFold inputs)).getD i defaultContour).depth =
        ((connectorToPolygon (connectorFold inputs)).getD p defaultContour).depth + 1 := by
  obtain ⟨hsz, hinv⟩ := connectorToPolygon_inv (connectorFold inputs)
    (connectorFold_contexts inputs).1
  obtain ⟨hpi, hnone, hdep⟩ := hinv i p h
  have hi : i < (connectorToPolygon (connectorFold inputs)).size := by
    by_contra hni
    have hdef : (connectorToPolygon (connectorFold inputs)).getD i defaultContour =
        defaultContour := by
      simp [Array.getD_eq_get?, Array.getElem?_eq_none_iff.mpr (Nat.le_of_not_lt hni)]
    rw [hdef] at h
    exact absurd h (by simp [defaultContour])
  exact ⟨by omega, by omega, hnone, hdep⟩

/-- Witness for C5 on the two-squares emission stream: contour 1 is a hole
of contour 0 with depth 1. -/
theorem C5_hole_parent_invariant_witness :
    ((connectorToPolygon (connectorFold holeExampleInputs)).getD 1 defaultContour).holeOf =
        some 0 ∧
      (0 < (connectorToPolygon (connectorFold holeExampleInputs)).size ∧ (0 : Nat) ≠ 1 ∧
        ((connectorToPolygon (connectorFold holeExampleInputs)).getD 0 defaultContour).holeOf =
          none ∧
        ((connectorToPolygon (connectorFold holeExampleInputs)).getD 1 defaultContour).depth =
          ((connectorToPolygon (connectorFold holeExampleInputs)).getD 0
            defaultContour).depth + 1) :=
  ⟨by decide, C5_hole_parent_invariant holeExampleInputs 1 0 (by decide)⟩

end Martinez
